import Mathlib

/-!
Verification development for the VOICE-FLOW backend's engine-facing resource
plane: the Gemini rate allocator (src/shared/gemini_allocator.py), the quota
reservation layer and AI-Ops guardian admission (src/backend/app.py), the
terminal error classifier (src/backend/engines/gemini-runtime/app.py), and the
grouped studio-pair synthesis assembly (src/backend/engines/gemini-runtime/app.py
together with src/backend/shared/gemini_multi_speaker.py).

The Python code is shallowly embedded: dictionaries become records or functions
with Option results, mutation becomes explicit state passing, `max(0, x - y)`
on non-negative integers becomes truncated Nat subtraction, and wall-clock time
becomes an explicit millisecond parameter.  Python string primitives
(`str.lower`, `str.upper`, `str.strip`, substring membership) are embedded as
executable functions over the character list of a `String`.
-/

namespace VoiceFlow

/-! ### Python string primitives -/

/-- Boolean test that the first character list is a prefix of the second. -/
def charsPrefixTest : List Char → List Char → Bool
  | [], _ => true
  | _ :: _, [] => false
  | a :: as, b :: bs => a == b && charsPrefixTest as bs

/-- Boolean test that `needle` occurs contiguously inside the second list. -/
def charsInfixTest (needle : List Char) : List Char → Bool
  | [] => charsPrefixTest needle []
  | c :: rest => charsPrefixTest needle (c :: rest) || charsInfixTest needle rest

/-- Python `needle in hay` on strings. -/
def strContainsSub (hay needle : String) : Bool :=
  charsInfixTest needle.data hay.data

/-- Python `str.lower()` (ASCII case folding, as used on the error markers). -/
def strLower (s : String) : String := ⟨s.data.map Char.toLower⟩

/-- Python `str.upper()`. -/
def strUpper (s : String) : String := ⟨s.data.map Char.toUpper⟩

/-- Python `str.strip()`: drop leading and trailing whitespace. -/
def strTrim (s : String) : String :=
  ⟨((s.data.dropWhile Char.isWhitespace).reverse.dropWhile Char.isWhitespace).reverse⟩

/-- Python `str.startswith(p)`. -/
def strStartsWith (s p : String) : Bool := charsPrefixTest p.data s.data

/-- Python `_as_positive_int` (src/backend/app.py): coerce to int and clamp at 0. -/
def asPositiveInt (v : Int) : Nat := v.toNat

/-! ### Guardian admission (`_ai_ops_throttle_payload`, src/backend/app.py) -/

/-- The `AI_OPS_CONCURRENCY_EXEMPT_PATHS` frozenset. -/
def aiOpsConcurrencyExemptPaths : List String :=
  ["/health", "/system/version", "/ops/guardian/status", "/ops/guardian/scan",
   "/ops/guardian/approvals"]

/-- Embeds `_ai_ops_is_exempt_path`. -/
def aiOpsIsExemptPath (path : String) : Bool :=
  let token := strTrim path
  aiOpsConcurrencyExemptPaths.contains token
    || strStartsWith token "/ops/guardian/"
    || strStartsWith token "/docs"

/-- The rejection payload built by `_ai_ops_throttle_payload` (the `ok` field is
always `False` on rejection and is omitted). -/
structure ThrottlePayload where
  reason : String
  detail : String
  retryAfterMs : Nat
  mode : String
deriving DecidableEq, Repr

/-- The guardian admission state read under `AI_OPS_LOCK` plus the static
configuration (`VF_AI_OPS_MODE`, soft/hard concurrency limits). -/
structure AiOpsAdmissionState where
  mode : String
  maintenanceMode : Bool
  inFlightTotal : Nat
  softLimit : Nat
  hardLimit : Nat
  temporarySheddingUntilMs : Nat
deriving DecidableEq, Repr

/-- Embeds `_ai_ops_throttle_payload` (src/backend/app.py lines 2261-2299):
`None` means the request is admitted. -/
def aiOpsThrottlePayload (st : AiOpsAdmissionState) (path : String) (nowMs : Nat) :
    Option ThrottlePayload :=
  if aiOpsIsExemptPath path then none
  else if st.maintenanceMode then
    some { reason := "maintenance_mode",
           detail := "AI Guardian maintenance mode is active.",
           retryAfterMs := 15000, mode := st.mode }
  else if st.mode ≠ "enforce" then none
  else if st.hardLimit ≤ st.inFlightTotal then
    some { reason := "hard_concurrency_limit",
           detail := "AI Guardian is shedding traffic. inFlight=" ++ toString st.inFlightTotal
             ++ ", hardLimit=" ++ toString st.hardLimit,
           retryAfterMs := 2000, mode := st.mode }
  else if nowMs < st.temporarySheddingUntilMs ∧ st.softLimit ≤ st.inFlightTotal then
    some { reason := "soft_shedding",
           detail := "AI Guardian soft shedding active. inFlight=" ++ toString st.inFlightTotal
             ++ ", softLimit=" ++ toString st.softLimit,
           retryAfterMs := max 500 (st.temporarySheddingUntilMs - nowMs),
           mode := st.mode }
  else none

/-- The guardian admission decision as the specification words it, for the
amended claim C5: the reason and retry hint of a rejection, `none` = allow.
The only divergence from the original claim text is that the soft-shedding
retry hint is the remaining shed time clamped from below at 500 ms. -/
def admissionDecisionSpec (st : AiOpsAdmissionState) (nowMs : Nat) :
    Option (String × Nat) :=
  if st.maintenanceMode then some ("maintenance_mode", 15000)
  else if st.mode ≠ "enforce" then none
  else if st.inFlightTotal ≥ st.hardLimit then some ("hard_concurrency_limit", 2000)
  else if nowMs < st.temporarySheddingUntilMs ∧ st.inFlightTotal ≥ st.softLimit then
    some ("soft_shedding", max 500 (st.temporarySheddingUntilMs - nowMs))
  else none

/-! ### Terminal error classification (gemini runtime `app.py`) -/

def errorCodeAllKeysAuthFailed : String := "GEMINI_ALL_KEYS_AUTH_FAILED"

def errorCodeAllKeysRateLimited : String := "GEMINI_ALL_KEYS_RATE_LIMITED"

def errorCodeKeyPoolTimeout : String := "GEMINI_KEY_POOL_TIMEOUT"

def errorCodeUpstreamModelFailed : String := "GEMINI_UPSTREAM_MODEL_FAILED"

/-- Embeds `_is_auth_error`. -/
def isAuthError (message : String) : Bool :=
  let lower := strLower message
  strContainsSub lower "api key"
    || strContainsSub lower "api_key_invalid"
    || strContainsSub lower "invalid api key"
    || strContainsSub lower "api key not valid"
    || strContainsSub lower "permission_denied"
    || strContainsSub lower "permission denied"
    || strContainsSub lower "unauthorized"
    || strContainsSub lower "forbidden"
    || (strContainsSub lower "invalid argument" && strContainsSub lower "api")

/-- Embeds `_is_rate_limit_error`. -/
def isRateLimitError (message : String) : Bool :=
  let lower := strLower message
  strContainsSub lower "429"
    || strContainsSub lower "quota exceeded"
    || strContainsSub lower "insufficient_quota"
    || strContainsSub lower "resource_exhausted"
    || strContainsSub lower "resource exhausted"
    || strContainsSub lower "rate limit"
    || strContainsSub lower "quota"
    || strContainsSub lower "too many requests"

/-- Embeds `_is_timeout_error`. -/
def isTimeoutError (message : String) : Bool :=
  let lower := strLower message
  strContainsSub lower "timed out"
    || strContainsSub lower "timeout"
    || strContainsSub lower "deadline exceeded"
    || strContainsSub lower "504"

/-- The noise marker tolerated by the classifier loop. -/
def isNoAudioNoise (detail : String) : Bool :=
  strContainsSub (strLower detail) "no audio payload returned by gemini"

/-- The loop body of `_classify_terminal_error_code`, over the per-attempt
error strings (an attempt dict is consulted only for its `error` field). -/
def classifyGo : List String → Bool → Bool → Bool → String
  | [], sawAuth, sawRate, sawNonRateNonNoise =>
      if sawAuth && !sawRate && !sawNonRateNonNoise then errorCodeAllKeysAuthFailed
      else if sawRate && !sawAuth && !sawNonRateNonNoise then errorCodeAllKeysRateLimited
      else errorCodeUpstreamModelFailed
  | e :: rest, sawAuth, sawRate, sawNonRateNonNoise =>
      let detail := strTrim e
      if isTimeoutError detail then errorCodeKeyPoolTimeout
      else if isAuthError detail then classifyGo rest true sawRate sawNonRateNonNoise
      else if isRateLimitError detail then classifyGo rest sawAuth true sawNonRateNonNoise
      else if isNoAudioNoise detail then classifyGo rest sawAuth sawRate sawNonRateNonNoise
      else classifyGo rest sawAuth sawRate true

/-- Embeds `_classify_terminal_error_code` (identical in both runtime copies:
src/backend/engines/gemini-runtime/app.py lines 765-789 and
src/engines/gemini-runtime/app.py lines 640-664). -/
def classifyTerminalErrorCode (modelAttempts : List String) (timedOut : Bool) : String :=
  if timedOut then errorCodeKeyPoolTimeout
  else if modelAttempts.isEmpty then errorCodeUpstreamModelFailed
  else classifyGo modelAttempts false false false

/-- Per-attempt classification as the elif-chain in the loop sees it: an
attempt counts as auth when `_is_auth_error` fires. -/
def attemptIsAuth (e : String) : Bool := isAuthError (strTrim e)

/-- An attempt counts as rate-limit when it is not auth and
`_is_rate_limit_error` fires. -/
def attemptIsRate (e : String) : Bool :=
  !isAuthError (strTrim e) && isRateLimitError (strTrim e)

/-- An attempt is noise when it is neither auth nor rate-limit and carries the
no-audio-payload marker. -/
def attemptIsNoise (e : String) : Bool :=
  !isAuthError (strTrim e) && !isRateLimitError (strTrim e) && isNoAudioNoise (strTrim e)

/-- An attempt that sets the `saw_non_rate_non_noise` flag. -/
def attemptIsOtherFailure (e : String) : Bool :=
  !isAuthError (strTrim e) && !isRateLimitError (strTrim e) && !isNoAudioNoise (strTrim e)

/-- The terminal classification exactly as claim C6 words it, used to exhibit
the divergence: the claim keys `KEY_POOL_TIMEOUT` on the LAST attempt error
being a timeout, and `ALL_KEYS_AUTH_FAILED` / `ALL_KEYS_RATE_LIMITED` on EVERY
attempt classifying as auth / rate-limit. -/
def claimedTerminalErrorCode (modelAttempts : List String) (timedOut : Bool) : String :=
  if timedOut || (modelAttempts.getLast?.elim false fun e => isTimeoutError (strTrim e)) then
    errorCodeKeyPoolTimeout
  else if !modelAttempts.isEmpty
      && modelAttempts.all attemptIsAuth
      && !modelAttempts.any attemptIsOtherFailure then
    errorCodeAllKeysAuthFailed
  else if !modelAttempts.isEmpty
      && modelAttempts.all attemptIsRate
      && !modelAttempts.any attemptIsOtherFailure then
    errorCodeAllKeysRateLimited
  else errorCodeUpstreamModelFailed

/-! ### Quota reservation (`_reserve_usage` / `_finalize_usage`, src/backend/app.py)

The in-memory store branch is embedded (the Firestore transactional branch
mirrors it statement for statement).  Usage windows are modelled by their
counter fields; the metadata fields (`uid`, `periodKey`, `updatedAt`) do not
feed any branch of the reservation logic.  The `byEngine` dict holds exactly
the two engines of `VF_ENGINE_RATES` (`GEM`, `KOKORO`) and reservation only
writes the key `safe_engine`, which is always one of the two, so the dict is
modelled as a two-field record. -/

/-- Per-engine usage counters inside a usage window. -/
structure EngineUsage where
  chars : Nat
  vf : Nat
deriving DecidableEq, Repr

/-- Counter fields of a monthly or daily usage window document. -/
structure UsageWindow where
  vfUsed : Nat
  generationCount : Nat
  gem : EngineUsage
  kokoro : EngineUsage
deriving DecidableEq, Repr

/-- The zeroed window written by `_usage_defaults`. -/
def usageWindowDefaults : UsageWindow :=
  { vfUsed := 0, generationCount := 0, gem := ⟨0, 0⟩, kokoro := ⟨0, 0⟩ }

/-- Lookup of `byEngine[engine]`; the argument is always "GEM" or "KOKORO". -/
def UsageWindow.engineUsage (w : UsageWindow) (engine : String) : EngineUsage :=
  if engine = "KOKORO" then w.kokoro else w.gem

/-- Write of `byEngine[engine]`; the argument is always "GEM" or "KOKORO". -/
def UsageWindow.setEngineUsage (w : UsageWindow) (engine : String) (u : EngineUsage) :
    UsageWindow :=
  if engine = "KOKORO" then { w with kokoro := u } else { w with gem := u }

/-- The `VF_ENGINE_RATES` table. -/
def vfEngineRates : List (String × Nat) := [("GEM", 3), ("KOKORO", 1)]

/-- Entitlement fields consulted by reservation (`_default_entitlement` plus
arbitrary stored overrides; values go through `_as_positive_int`). -/
structure Entitlement where
  plan : String
  monthlyVfLimit : Int
  dailyGenerationLimit : Int
deriving DecidableEq, Repr

/-- The free-plan default entitlement (`PLAN_LIMITS["free"]` with the default
`VF_DAILY_GENERATION_LIMIT` of 30). -/
def defaultEntitlement : Entitlement :=
  { plan := "Free", monthlyVfLimit := 8000, dailyGenerationLimit := 30 }

/-- A `usage_events/{uid}_{requestId}` document. -/
structure UsageEvent where
  uid : String
  requestId : String
  status : String
  engine : String
  chars : Nat
  vfCost : Nat
  monthDocId : String
  dayDocId : String
  error : String
deriving DecidableEq, Repr

/-- The in-memory quota store: the four dictionaries guarded by
`_INMEMORY_LOCK`, keyed by uid or document id. -/
structure QuotaStore where
  entitlements : String → Option Entitlement
  monthly : String → Option UsageWindow
  daily : String → Option UsageWindow
  events : String → Option UsageEvent

/-- Point update of a string-keyed map. -/
def setMap {α : Type} (f : String → Option α) (k : String) (v : α) :
    String → Option α :=
  fun x => if x = k then some v else f x

/-- Reservation outcome mirroring the returned payload of `_reserve_usage`. -/
structure ReserveOk where
  alreadyReserved : Bool
  event : UsageEvent
  monthly : UsageWindow
  daily : UsageWindow
deriving DecidableEq, Repr

/-- The two quota aborts raised by `_reserve_usage`. -/
inductive QuotaError where
  | monthlyVfExceeded
  | dailyGenerationExceeded
deriving DecidableEq, Repr

/-- HTTP status attached to the abort (`HTTPException(status_code=429, ...)`). -/
def QuotaError.statusCode : QuotaError → Nat
  | _ => 429

/-- The `detail` string of the abort. -/
def QuotaError.detail : QuotaError → String
  | .monthlyVfExceeded => "Monthly VF limit exceeded."
  | .dailyGenerationExceeded => "Daily generation limit reached."

/-- The `safe_engine` computation of `_reserve_usage`: upper-cased strip,
falling back to "GEM" when the engine has no configured rate. -/
def safeEngineOf (engine : String) : String :=
  let e := strUpper (strTrim engine)
  if (vfEngineRates.lookup e).isSome then e else "GEM"

/-- The per-character rate of the sanitized engine. -/
def engineRateOf (engine : String) : Nat :=
  (vfEngineRates.lookup (safeEngineOf engine)).getD 0

/-- The deltas Reserve adds to one usage window. -/
def reserveWindowUpdate (w : UsageWindow) (safeEngine : String)
    (safeChars vfCost : Nat) : UsageWindow :=
  let e := w.engineUsage safeEngine
  ({ w with vfUsed := w.vfUsed + vfCost,
            generationCount := w.generationCount + 1
   }).setEngineUsage safeEngine ⟨e.chars + safeChars, e.vf + vfCost⟩

/-- The event document Reserve writes. -/
def reserveEventPayload (uid requestId safeEngine : String) (safeChars vfCost : Nat)
    (monthlyDocId dailyDocId : String) : UsageEvent :=
  { uid := uid, requestId := requestId, status := "reserved",
    engine := safeEngine, chars := safeChars, vfCost := vfCost,
    monthDocId := monthlyDocId, dayDocId := dailyDocId, error := "" }

/-- The limit checks and delta application of `_reserve_usage` after the
idempotency check has fallen through. -/
def reserveUsageApply (store : QuotaStore) (uid requestId safeEngine : String)
    (safeChars vfCost : Nat) (entitlement : Entitlement)
    (monthly daily : UsageWindow) (monthlyDocId dailyDocId eventDocId : String) :
    QuotaStore × Except QuotaError ReserveOk :=
  let monthlyLimit := asPositiveInt entitlement.monthlyVfLimit
  let dailyLimit := asPositiveInt entitlement.dailyGenerationLimit
  if monthlyLimit < monthly.vfUsed + vfCost then
    (store, .error .monthlyVfExceeded)
  else if dailyLimit < daily.generationCount + 1 then
    (store, .error .dailyGenerationExceeded)
  else
    let monthly' := reserveWindowUpdate monthly safeEngine safeChars vfCost
    let daily' := reserveWindowUpdate daily safeEngine safeChars vfCost
    let eventPayload :=
      reserveEventPayload uid requestId safeEngine safeChars vfCost monthlyDocId dailyDocId
    let store' :=
      { store with monthly := setMap store.monthly monthlyDocId monthly',
                   daily := setMap store.daily dailyDocId daily',
                   events := setMap store.events eventDocId eventPayload }
    (store', .ok { alreadyReserved := false, event := eventPayload,
                   monthly := monthly', daily := daily' })

/-- Embeds `_reserve_usage` (src/backend/app.py lines 1650-1710, the in-memory
branch).  The month and day period keys stand in for `_utc_now()`. -/
def reserveUsage (store : QuotaStore) (uid requestId engine : String)
    (charCount : Int) (monthKey dayKey : String) :
    QuotaStore × Except QuotaError ReserveOk :=
  let safeEngine := safeEngineOf engine
  let safeChars := asPositiveInt charCount
  let vfCost := safeChars * engineRateOf engine
  let monthlyDocId := uid ++ "_" ++ monthKey
  let dailyDocId := uid ++ "_" ++ dayKey
  let eventDocId := uid ++ "_" ++ requestId
  let entitlement := (store.entitlements uid).getD defaultEntitlement
  let store1 := { store with entitlements := setMap store.entitlements uid entitlement }
  let monthly := (store1.monthly monthlyDocId).getD usageWindowDefaults
  let daily := (store1.daily dailyDocId).getD usageWindowDefaults
  match store1.events eventDocId with
  | some ev =>
      if ev.status = "reserved" ∨ ev.status = "committed" then
        (store1, .ok { alreadyReserved := true, event := ev,
                       monthly := monthly, daily := daily })
      else
        reserveUsageApply store1 uid requestId safeEngine safeChars vfCost entitlement
          monthly daily monthlyDocId dailyDocId eventDocId
  | none =>
      reserveUsageApply store1 uid requestId safeEngine safeChars vfCost entitlement
        monthly daily monthlyDocId dailyDocId eventDocId

/-- The clamped decrement applied to one usage window when reverting. -/
def revertWindow (w : UsageWindow) (engine : String) (vfCost chars : Nat) :
    UsageWindow :=
  let e := w.engineUsage engine
  ({ w with vfUsed := w.vfUsed - vfCost,
            generationCount := w.generationCount - 1
   }).setEngineUsage engine ⟨e.chars - chars, e.vf - vfCost⟩

/-- Embeds `_finalize_usage` (src/backend/app.py lines 1788-1831, the in-memory
branch).  `success = true` commits, `success = false` reverts. -/
def finalizeUsage (store : QuotaStore) (uid requestId : String) (success : Bool)
    (errorDetail : String) : QuotaStore :=
  let eventDocId := uid ++ "_" ++ requestId
  match store.events eventDocId with
  | none => store
  | some ev =>
      if ev.status = "committed" then store
      else if success then
        { store with events := setMap store.events eventDocId { ev with status := "committed" } }
      else
        let store1 :=
          if ev.status = "reserved" then
            let engine := strUpper (if ev.engine = "" then "GEM" else ev.engine)
            let store1a :=
              match store.monthly ev.monthDocId with
              | none => store
              | some m =>
                  let m' := setMap store.monthly ev.monthDocId (revertWindow m engine ev.vfCost ev.chars)
                  { store with monthly := m' }
            match store1a.daily ev.dayDocId with
            | none => store1a
            | some d =>
                let d' := setMap store1a.daily ev.dayDocId (revertWindow d engine ev.vfCost ev.chars)
                { store1a with daily := d' }
          else store
        let e' := setMap store1.events eventDocId { ev with status := "reverted", error := errorDetail }
        { store1 with events := e' }

/-- Counter snapshot of a window document: the stored counters, or the zeroed
defaults when the document does not exist (what `_reserve_usage` reads). -/
def windowSnapshot (m : String → Option UsageWindow) (docId : String) : UsageWindow :=
  (m docId).getD usageWindowDefaults

/-! ### Gemini rate allocator (src/shared/gemini_allocator.py)

State dictionaries become functions with `Option` results (absence = not yet
created), Python `max(0, a - b)` on the non-negative counters becomes truncated
Nat subtraction, and `time.time()*1000` becomes an explicit millisecond clock:
the acquisition loop's scan is instantaneous and `time.sleep` advances the
clock by exactly the requested amount. -/

/-- A `ModelLimit` row of the allocator configuration. -/
structure ModelLimit where
  modelId : String
  rpm : Nat
  tpm : Nat
  enabledFor : List String
deriving DecidableEq, Repr

/-- The validated `AllocatorConfig`. -/
structure AllocatorConfig where
  version : String
  windowSeconds : Nat
  defaultWaitTimeoutMs : Nat
  models : List (String × ModelLimit)
  routes : List (String × List String)
deriving DecidableEq, Repr

/-- Allocator construction parameters (`GeminiRateAllocator.__init__`). -/
structure Allocator where
  config : AllocatorConfig
  windowMs : Nat
  authDisableMs : Nat
  waitSliceMs : Nat
deriving DecidableEq, Repr

/-- Embeds `GeminiRateAllocator.__init__`. -/
def mkAllocator (config : AllocatorConfig) (authDisableMs waitSliceMs : Nat) : Allocator :=
  { config := config, windowMs := config.windowSeconds * 1000,
    authDisableMs := max 1000 authDisableMs, waitSliceMs := max 100 waitSliceMs }

/-- The `_LaneState` dataclass. -/
structure LaneState where
  windowStartedMs : Nat
  requests : Nat
  tokens : Nat
  inFlightRequests : Nat
  inFlightTokens : Nat
  tempBlockUntilMs : Nat
  successTotal : Nat
  failureTotal : Nat
  rateLimitedTotal : Nat
deriving DecidableEq, Repr

/-- A lane as `_lane_state` creates it at time `nowMs`. -/
def laneFresh (nowMs : Nat) : LaneState :=
  { windowStartedMs := nowMs, requests := 0, tokens := 0, inFlightRequests := 0,
    inFlightTokens := 0, tempBlockUntilMs := 0, successTotal := 0, failureTotal := 0,
    rateLimitedTotal := 0 }

/-- The `_KeyState` dataclass, all fields defaulted to zero. -/
structure KeyState where
  authDisabledUntilMs : Nat
  inFlightTotal : Nat
  requestsTotal : Nat
  successTotal : Nat
  failureTotal : Nat
  authFailuresTotal : Nat
  rateLimitedTotal : Nat
deriving DecidableEq, Repr

/-- A key state as `_key_state` creates it. -/
def keyStateInit : KeyState :=
  { authDisabledUntilMs := 0, inFlightTotal := 0, requestsTotal := 0, successTotal := 0,
    failureTotal := 0, authFailuresTotal := 0, rateLimitedTotal := 0 }

/-- The mutable allocator state guarded by `self._lock`. -/
structure AllocState where
  lanes : String × String → Option LaneState
  keys : String → Option KeyState
  nextKeyIndex : Nat

/-- The freshly constructed allocator state. -/
def initAllocState : AllocState :=
  { lanes := fun _ => none, keys := fun _ => none, nextKeyIndex := 0 }

/-- Embeds `_key_state`: fetch, creating the default entry when absent. -/
def keyStateOf (st : AllocState) (key : String) : KeyState × AllocState :=
  match st.keys key with
  | some ks => (ks, st)
  | none =>
      (keyStateInit,
       { st with keys := fun k => if k = key then some keyStateInit else st.keys k })

/-- Embeds `_lane_state`: fetch, creating a fresh lane stamped `nowMs`. -/
def laneStateOf (st : AllocState) (key modelId : String) (nowMs : Nat) :
    LaneState × AllocState :=
  match st.lanes (key, modelId) with
  | some l => (l, st)
  | none =>
      (laneFresh nowMs,
       { st with lanes := fun p =>
           if p = (key, modelId) then some (laneFresh nowMs) else st.lanes p })

/-- Point write of a lane. -/
def setLaneState (st : AllocState) (key modelId : String) (l : LaneState) : AllocState :=
  { st with lanes := fun p => if p = (key, modelId) then some l else st.lanes p }

/-- Point write of a key state. -/
def setKeyState (st : AllocState) (key : String) (ks : KeyState) : AllocState :=
  { st with keys := fun k => if k = key then some ks else st.keys k }

/-- Embeds `_reset_lane_if_window_rolled`. -/
def resetLaneIfWindowRolled (al : Allocator) (lane : LaneState) (nowMs : Nat) : LaneState :=
  if lane.windowStartedMs = 0 then { lane with windowStartedMs := nowMs }
  else if nowMs - lane.windowStartedMs < al.windowMs then lane
  else
    { lane with windowStartedMs := nowMs, requests := 0, tokens := 0,
                inFlightRequests := 0, inFlightTokens := 0, tempBlockUntilMs := 0 }

/-- Embeds `_lane_ready_wait_ms`: 0 means the lane is ready now. -/
def laneReadyWaitMs (al : Allocator) (limit : ModelLimit) (keyState : KeyState)
    (lane : LaneState) (requestedTokens nowMs : Nat) : Nat :=
  if nowMs < keyState.authDisabledUntilMs then max 1 (keyState.authDisabledUntilMs - nowMs)
  else if nowMs < lane.tempBlockUntilMs then max 1 (lane.tempBlockUntilMs - nowMs)
  else
    let windowResetMs := max 1 (lane.windowStartedMs + al.windowMs - nowMs)
    if limit.rpm < lane.requests + lane.inFlightRequests + 1 then windowResetMs
    else if limit.tpm < lane.tokens + lane.inFlightTokens + requestedTokens then windowResetMs
    else 0

/-- Embeds `_ordered_key_indexes`: the optional preferred key first, then the
round-robin rotation starting at the shared cursor. -/
def orderedKeyIndexes (keyPool : List String) (preferred : String)
    (blockedKeys : List String) (nextKeyIndex : Nat) : List Nat :=
  let size := keyPool.length
  if size = 0 then []
  else
    let preferredIdx : List Nat :=
      if preferred ≠ "" ∧ keyPool.contains preferred ∧ ¬ (blockedKeys.contains preferred = true)
      then [keyPool.findIdx (fun k => k == preferred)]
      else []
    let start := nextKeyIndex % size
    preferredIdx ++
      ((List.range size).map (fun off => (start + off) % size)).filter
        (fun i => !preferredIdx.contains i)

/-- A `LaneLease`. -/
structure LaneLease where
  key : String
  modelId : String
  keyIndex : Nat
  modelIndex : Nat
  reservedTokens : Nat
  reservedAtMs : Nat
deriving DecidableEq, Repr

/-- An `AcquireResult`. -/
structure AcquireResult where
  lease : Option LaneLease
  waitedMs : Nat
  retryAfterMs : Nat
  timedOut : Bool
deriving DecidableEq, Repr

/-- The in-flight bump performed when a ready lane is acquired. -/
def laneAcquireBump (lane : LaneState) (safeRequestedTokens : Nat) : LaneState :=
  { lane with inFlightRequests := lane.inFlightRequests + 1,
              inFlightTokens := lane.inFlightTokens + safeRequestedTokens }

/-- The `(model, key)` pairs one pass of the acquisition loop inspects, in
order: valid candidate models (outer) by ordered key indexes (inner). -/
def scanPairs (al : Allocator) (modelCandidates keyPool blockedKeySet : List String)
    (preferred : String) (st : AllocState) : List (Nat × String × Nat) :=
  let validCandidates := modelCandidates.filter (fun m => (al.config.models.lookup m).isSome)
  let orderedIdx := orderedKeyIndexes keyPool preferred blockedKeySet st.nextKeyIndex
  validCandidates.enum.flatMap (fun p => orderedIdx.map (fun ki => (p.1, p.2, ki)))

/-- One pass of the body of `acquire_for_models` under the lock: walk the
pairs, rolling windows and accumulating the nearest non-zero wait, until a
ready lane is found and bumped. -/
def scanGo (al : Allocator) (keyPool blockedKeySet : List String)
    (safeRequestedTokens nowMs : Nat) :
    List (Nat × String × Nat) → AllocState → Option Nat →
    AllocState × Option LaneLease × Option Nat
  | [], st, nearest => (st, none, nearest)
  | (modelIndex, modelId, keyIndex) :: rest, st, nearest =>
      let key := strTrim (keyPool.getD keyIndex "")
      if key = "" ∨ blockedKeySet.contains key then
        scanGo al keyPool blockedKeySet safeRequestedTokens nowMs rest st nearest
      else
        match al.config.models.lookup modelId with
        | none => scanGo al keyPool blockedKeySet safeRequestedTokens nowMs rest st nearest
        | some limit =>
            let ksSt := keyStateOf st key
            let laneSt := laneStateOf ksSt.2 key modelId nowMs
            let lane := resetLaneIfWindowRolled al laneSt.1 nowMs
            let st3 := setLaneState laneSt.2 key modelId lane
            let w := laneReadyWaitMs al limit ksSt.1 lane safeRequestedTokens nowMs
            if w ≠ 0 then
              let nearest' := some (match nearest with | none => w | some n => min n w)
              scanGo al keyPool blockedKeySet safeRequestedTokens nowMs rest st3 nearest'
            else
              let st4 := setLaneState st3 key modelId (laneAcquireBump lane safeRequestedTokens)
              let st5 := setKeyState st4 key
                { ksSt.1 with inFlightTotal := ksSt.1.inFlightTotal + 1 }
              let st6 :=
                if keyPool.length ≠ 0 then
                  { st5 with nextKeyIndex := (keyIndex + 1) % keyPool.length }
                else st5
              (st6,
               some { key := key, modelId := modelId, keyIndex := keyIndex,
                      modelIndex := modelIndex, reservedTokens := safeRequestedTokens,
                      reservedAtMs := nowMs },
               nearest)

/-- The retry loop of `acquire_for_models`.  `elapsed` is the total wait so
far; the wall clock is `t0 + elapsed`.  The third component of the result is
the `nearest_wait_ms` local variable at the moment of return.  The `fuel`
argument is only a structural termination bound: every iteration sleeps at
least 1 ms, so with `fuel = safeTimeoutMs - elapsed + 1` the zero-fuel branch
is unreachable (proved below). -/
def acquireGo (al : Allocator) (modelCandidates keyPool blockedKeySet : List String)
    (safeRequestedTokens : Nat) (preferred : String) (t0 safeTimeoutMs : Nat) :
    Nat → AllocState → Nat → AllocState × AcquireResult × Option Nat
  | 0, st, elapsed =>
      (st, { lease := none, waitedMs := elapsed, retryAfterMs := 0, timedOut := true }, none)
  | fuel + 1, st, elapsed =>
      let nowMs := t0 + elapsed
      let pairs := scanPairs al modelCandidates keyPool blockedKeySet preferred st
      match scanGo al keyPool blockedKeySet safeRequestedTokens nowMs pairs st none with
      | (st1, some lease, nearest) =>
          (st1, { lease := some lease, waitedMs := elapsed, retryAfterMs := 0,
                  timedOut := false }, nearest)
      | (st1, none, nearest) =>
          if safeTimeoutMs ≤ elapsed then
            (st1, { lease := none, waitedMs := elapsed, retryAfterMs := nearest.getD 0,
                    timedOut := true }, nearest)
          else
            let remaining := safeTimeoutMs - elapsed
            let sleep :=
              min (min (max 100 (nearest.getD al.waitSliceMs)) al.waitSliceMs) remaining
            if sleep = 0 then
              (st1, { lease := none, waitedMs := elapsed, retryAfterMs := nearest.getD 0,
                      timedOut := true }, nearest)
            else
              acquireGo al modelCandidates keyPool blockedKeySet safeRequestedTokens
                preferred t0 safeTimeoutMs fuel st1 (elapsed + sleep)

/-- Embeds `acquire_for_models` (src/shared/gemini_allocator.py lines 363-460). -/
def acquireForModels (al : Allocator) (modelCandidates keyPool : List String)
    (requestedTokens : Nat) (blockedKeys : List String) (waitTimeoutMs : Option Nat)
    (preferredKey : Option String) (t0 : Nat) (st : AllocState) :
    AllocState × AcquireResult :=
  let safeRequestedTokens := max 1 requestedTokens
  let blockedKeySet := (blockedKeys.map strTrim).filter (fun k => k ≠ "")
  let safeTimeoutMs := max 1000 (waitTimeoutMs.getD al.config.defaultWaitTimeoutMs)
  let preferred := strTrim (preferredKey.getD "")
  let out := acquireGo al modelCandidates keyPool blockedKeySet safeRequestedTokens
    preferred t0 safeTimeoutMs (safeTimeoutMs + 1) st 0
  (out.1, out.2.1)

/-- Embeds `acquire_for_task` (src/shared/gemini_allocator.py lines 337-361). -/
def acquireForTask (al : Allocator) (task : String) (keyPool : List String)
    (requestedTokens : Nat) (blockedKeys blockedModels : List String)
    (waitTimeoutMs : Option Nat) (preferredKey : Option String) (t0 : Nat)
    (st : AllocState) : AllocState × AcquireResult :=
  let normalizedTask := strLower (strTrim task)
  let route := (al.config.routes.lookup normalizedTask).getD []
  let blockedModelSet := (blockedModels.map strTrim).filter (fun m => m ≠ "")
  let candidates := route.filter (fun m => !blockedModelSet.contains m)
  if candidates.isEmpty then
    (st, { lease := none, waitedMs := 0, retryAfterMs := 0, timedOut := true })
  else
    acquireForModels al candidates keyPool requestedTokens blockedKeys waitTimeoutMs
      preferredKey t0 st

/-- Python `max(reserved, used_tokens or reserved)`: `or` treats both `None`
and 0 as missing. -/
def releaseSafeUsedTokens (reservedTokens : Nat) (usedTokens : Option Nat) : Nat :=
  max reservedTokens
    (match usedTokens with
     | none => reservedTokens
     | some u => if u = 0 then reservedTokens else u)

/-- The lane mutations of `release` after the window-roll check: drop the
in-flight reservation, count the request and tokens, record the outcome, and
on `rate_limit` set the temporary block to the window's end. -/
def laneReleaseApply (al : Allocator) (lane : LaneState)
    (reservedTokens safeUsedTokens : Nat) (success : Bool) (errorKind : String) :
    LaneState :=
  let l1 := { lane with inFlightRequests := lane.inFlightRequests - 1,
                        inFlightTokens := lane.inFlightTokens - reservedTokens }
  let l2 := { l1 with requests := l1.requests + 1, tokens := l1.tokens + safeUsedTokens }
  let l3 :=
    if success then { l2 with successTotal := l2.successTotal + 1 }
    else { l2 with failureTotal := l2.failureTotal + 1 }
  if strLower (strTrim errorKind) = "rate_limit" then
    { l3 with rateLimitedTotal := l3.rateLimitedTotal + 1,
              tempBlockUntilMs := max l3.tempBlockUntilMs (l3.windowStartedMs + al.windowMs) }
  else l3

/-- The key-state mutations of `release`. -/
def keyReleaseApply (al : Allocator) (ks : KeyState) (success : Bool)
    (errorKind : String) (nowMs : Nat) : KeyState :=
  let k1 := { ks with inFlightTotal := ks.inFlightTotal - 1,
                      requestsTotal := ks.requestsTotal + 1 }
  let k2 :=
    if success then { k1 with successTotal := k1.successTotal + 1 }
    else { k1 with failureTotal := k1.failureTotal + 1 }
  let err := strLower (strTrim errorKind)
  if err = "auth" then
    { k2 with authFailuresTotal := k2.authFailuresTotal + 1,
              authDisabledUntilMs := max k2.authDisabledUntilMs (nowMs + al.authDisableMs) }
  else if err = "rate_limit" then
    { k2 with rateLimitedTotal := k2.rateLimitedTotal + 1 }
  else k2

/-- Embeds `release` (src/shared/gemini_allocator.py lines 462-507) for an
actually issued lease (`release(None)` is a defensive no-op). -/
def releaseLease (al : Allocator) (st : AllocState) (lease : LaneLease) (success : Bool)
    (usedTokens : Option Nat) (errorKind : String) (nowMs : Nat) : AllocState :=
  let safeUsed := releaseSafeUsedTokens lease.reservedTokens usedTokens
  let ksSt := keyStateOf st lease.key
  let laneSt := laneStateOf ksSt.2 lease.key lease.modelId nowMs
  let lane1 := resetLaneIfWindowRolled al laneSt.1 nowMs
  let lane2 := laneReleaseApply al lane1 lease.reservedTokens safeUsed success errorKind
  let ks2 := keyReleaseApply al ksSt.1 success errorKind nowMs
  setKeyState (setLaneState laneSt.2 lease.key lease.modelId lane2) lease.key ks2

/-- The lane mutations of `mark_rate_limited`. -/
def laneMarkRateLimitedApply (al : Allocator) (lane : LaneState) : LaneState :=
  { lane with rateLimitedTotal := lane.rateLimitedTotal + 1,
              tempBlockUntilMs := max lane.tempBlockUntilMs (lane.windowStartedMs + al.windowMs) }

/-- Embeds `mark_rate_limited`. -/
def markRateLimited (al : Allocator) (st : AllocState) (key modelId : String)
    (nowMs : Nat) : AllocState :=
  let laneSt := laneStateOf st key modelId nowMs
  let lane := resetLaneIfWindowRolled al laneSt.1 nowMs
  let st2 := setLaneState laneSt.2 key modelId (laneMarkRateLimitedApply al lane)
  let ksSt := keyStateOf st2 key
  setKeyState ksSt.2 key { ksSt.1 with rateLimitedTotal := ksSt.1.rateLimitedTotal + 1 }

/-- Embeds `mark_auth_failed`. -/
def markAuthFailed (al : Allocator) (st : AllocState) (key : String) (nowMs : Nat) :
    AllocState :=
  let ksSt := keyStateOf st key
  setKeyState ksSt.2 key
    { ksSt.1 with authFailuresTotal := ksSt.1.authFailuresTotal + 1,
                  authDisabledUntilMs :=
                    max ksSt.1.authDisabledUntilMs (nowMs + al.authDisableMs) }

/-- The in-flight counter of a key as stored (0 when never created). -/
def keyInFlight (st : AllocState) (key : String) : Nat :=
  ((st.keys key).getD keyStateInit).inFlightTotal

/-- The stored lane for a `(key, model)` pair (fresh-at-0 when never created). -/
def laneOf (st : AllocState) (key modelId : String) : LaneState :=
  (st.lanes (key, modelId)).getD (laneFresh 0)

/-! #### Per-lane operation machine for the capacity invariant (claim C1) -/

/-- The operations that touch one lane's counters, abstracted from the
allocator entry points: an acquisition attempt on the lane, the release of a
lease on the lane, an external rate-limit strike, and the window-roll check a
snapshot performs. -/
inductive LaneOp where
  | acquire (requestedTokens nowMs authDisabledUntilMs : Nat)
  | release (success : Bool) (reservedTokens : Nat) (usedTokens : Option Nat)
      (errorKind : String) (nowMs : Nat)
  | markRateLimited (nowMs : Nat)
  | snapshotInspect (nowMs : Nat)
deriving DecidableEq, Repr

/-- One lane's evolution under an operation, assembled from the same pieces
the allocator entry points use. -/
def laneExec (al : Allocator) (limit : ModelLimit) (lane : LaneState) : LaneOp → LaneState
  | .acquire req now authUntil =>
      let l1 := resetLaneIfWindowRolled al lane now
      let ks := { keyStateInit with authDisabledUntilMs := authUntil }
      if laneReadyWaitMs al limit ks l1 req now = 0 then laneAcquireBump l1 req else l1
  | .release success reserved used err now =>
      let l1 := resetLaneIfWindowRolled al lane now
      laneReleaseApply al l1 reserved (releaseSafeUsedTokens reserved used) success err
  | .markRateLimited now => laneMarkRateLimitedApply al (resetLaneIfWindowRolled al lane now)
  | .snapshotInspect now => resetLaneIfWindowRolled al lane now

/-- The lane capacity bound of claim C1: counted plus in-flight stays within
the model budgets. -/
def laneCapacityInvariant (limit : ModelLimit) (lane : LaneState) : Prop :=
  lane.requests + lane.inFlightRequests ≤ limit.rpm ∧
  lane.tokens + lane.inFlightTokens ≤ limit.tpm

/-- Side condition of the amended claim C1 on release operations: the release
reports no more tokens than were reserved, and the lease's in-flight
contribution is still present in the lane after the window-roll check (the
lease does not straddle a window rollover). -/
def laneOpOk (al : Allocator) (lane : LaneState) : LaneOp → Prop
  | .release _ reserved used _ now =>
      let l1 := resetLaneIfWindowRolled al lane now
      releaseSafeUsedTokens reserved used = reserved ∧
      reserved ≤ l1.inFlightTokens ∧ 1 ≤ l1.inFlightRequests
  | _ => True

/-! ### Grouped studio-pair synthesis assembly

From `normalize_multi_speaker_line_map` / `split_int16_pcm_for_lines`
(src/backend/shared/gemini_multi_speaker.py) and the reassembly tail of
`_synthesize_studio_pair_groups` (src/backend/engines/gemini-runtime/app.py
lines 1069-1160).  PCM byte strings become `List Nat`; the upstream synthesis
calls sit behind the per-group results, whose completion order is modelled by
quantifying over permutations of the result list. -/

/-- Splitting a character list into maximal whitespace-free words (the effect
of Python `re.sub(r"\s+", " ", s).strip()` before rejoining). -/
def wordsAux : List Char → List Char → List (List Char)
  | [], cur => if cur = [] then [] else [cur.reverse]
  | c :: rest, cur =>
      if c.isWhitespace then
        if cur = [] then wordsAux rest [] else cur.reverse :: wordsAux rest []
      else wordsAux rest (c :: cur)

/-- Joining words back with single spaces. -/
def joinWords : List (List Char) → List Char
  | [] => []
  | [w] => w
  | w :: rest => w ++ ' ' :: joinWords rest

/-- Python `re.sub(r"\s+", " ", s).strip()` (`_normalize_line_text` and the
speaker normalization). -/
def collapseWs (s : String) : String := ⟨joinWords (wordsAux s.data [])⟩

/-- A line-map record: `lineIndex`, `speaker`, `text`. -/
structure LineEntry where
  lineIndex : Int
  speaker : String
  text : String
deriving DecidableEq, Repr

/-- The filtering pass of `normalize_multi_speaker_line_map`: drop negative or
repeated indexes and entries whose speaker or text normalizes to empty. -/
def normalizeLineMapGo : List LineEntry → List Int → List LineEntry
  | [], _ => []
  | item :: rest, seen =>
      if item.lineIndex < 0 ∨ seen.contains item.lineIndex then
        normalizeLineMapGo rest seen
      else
        let speaker := collapseWs item.speaker
        if speaker = "" then normalizeLineMapGo rest seen
        else
          let text := collapseWs item.text
          if text = "" then normalizeLineMapGo rest seen
          else
            { lineIndex := item.lineIndex, speaker := speaker, text := text } ::
              normalizeLineMapGo rest (item.lineIndex :: seen)

/-- Embeds `normalize_multi_speaker_line_map`: filter, then sort by
`lineIndex`. -/
def normalizeMultiSpeakerLineMap (raw : List LineEntry) : List LineEntry :=
  (normalizeLineMapGo raw []).mergeSort (fun a b => decide (a.lineIndex ≤ b.lineIndex))

/-- One successfully synthesized group as `run_group` returns it. -/
structure GroupResult where
  groupIndex : Nat
  lines : List LineEntry
  lineChunks : List (List Nat)
  model : String
  speechMode : String
  keyIndex : Nat
  splitMode : String
  attempts : Nat
deriving DecidableEq, Repr

/-- The `(lineIndex, chunk, splitMode)` assignments one group result
contributes to `line_audio_by_index` / `line_split_mode_by_index`: lines are
zipped positionally with the group's chunks (missing chunk = empty bytes) and
negative indexes are skipped. -/
def lineEntriesOfResult (r : GroupResult) : List (Int × List Nat × String) :=
  r.lines.enum.filterMap fun p =>
    if p.2.lineIndex < 0 then none
    else
      some (p.2.lineIndex, r.lineChunks.getD p.1 [],
            if r.splitMode = "" then "duration" else r.splitMode)

/-- Dictionary assignment left to right; a later assignment overwrites. -/
def assignEntries : List (Int × List Nat × String) →
    (Int → Option (List Nat × String)) → Int → Option (List Nat × String)
  | [], m => m
  | (i, chunk, sm) :: rest, m =>
      assignEntries rest (fun j => if j = i then some (chunk, sm) else m j)

/-- The sort key of `sorted(group_results, key=groupIndex)`. -/
def groupResultLe (a b : GroupResult) : Bool := decide (a.groupIndex ≤ b.groupIndex)

/-- The `line_audio_by_index` and `line_split_mode_by_index` dictionaries after
the assembly loop over the sorted group results. -/
def lineAudioMap (groupResults : List GroupResult) : Int → Option (List Nat × String) :=
  assignEntries ((groupResults.mergeSort groupResultLe).flatMap lineEntriesOfResult)
    (fun _ => none)

/-- The 10 ms zero-amplitude fallback chunk (480 bytes = 240 int16 samples at
24 kHz). -/
def silenceChunk : List Nat := List.replicate 480 0

/-- One record of the structured `lineChunks` response. -/
structure OrderedLineChunk where
  lineIndex : Int
  pcmBytes : List Nat
  splitMode : String
  silenceFallback : Bool
deriving DecidableEq, Repr

/-- Assembly of one ordered line chunk: empty audio turns into the silence
fallback. -/
def buildOrderedLineChunk (m : Int → Option (List Nat × String)) (i : Int) :
    OrderedLineChunk :=
  let chunk0 := (m i).elim [] Prod.fst
  if chunk0 = [] then
    { lineIndex := i, pcmBytes := silenceChunk, splitMode := "silence",
      silenceFallback := true }
  else
    { lineIndex := i, pcmBytes := chunk0, splitMode := (m i).elim "duration" Prod.snd,
      silenceFallback := false }

/-- The `ordered_line_indexes` list: the normalized map's indexes, negatives
dropped. -/
def orderedLineIndexes (normalizedLineMap : List LineEntry) : List Int :=
  (normalizedLineMap.map fun l => l.lineIndex).filter fun i => decide (0 ≤ i)

/-- The WAV container of `pcm16_to_wav`, modelled as its sample rate and the
audio payload handed to `writeframes` (the RIFF header bytes carry no further
information used by any claim). -/
structure WavFile where
  sampleRate : Nat
  audioPayload : List Nat
deriving DecidableEq, Repr

/-- Embeds `pcm16_to_wav`: reject odd PCM byte counts, otherwise mux. -/
def pcm16ToWav (pcmBytes : List Nat) (sampleRate : Nat) : Except String WavFile :=
  if pcmBytes.length % 2 ≠ 0 then .error "Gemini audio payload has invalid PCM length."
  else .ok { sampleRate := sampleRate, audioPayload := pcmBytes }

/-- The structured response fields of `_synthesize_studio_pair_groups` the
claims speak about. -/
structure GroupedSynthOut where
  wav : WavFile
  lineChunks : List OrderedLineChunk
deriving DecidableEq, Repr

/-- The reassembly tail of `_synthesize_studio_pair_groups` once every group
future has succeeded: build the line-index dictionaries from the sorted
results, emit the chunks in normalized line order with silence fallbacks, join
them, and mux at 24 kHz. -/
def synthesizeStudioPairGroupsAssemble (normalizedLineMap : List LineEntry)
    (groupResults : List GroupResult) : Except String GroupedSynthOut :=
  let m := lineAudioMap groupResults
  let chunks := (orderedLineIndexes normalizedLineMap).map (buildOrderedLineChunk m)
  let finalPcm := (chunks.map fun c => c.pcmBytes).flatten
  if finalPcm = [] then .error "Gemini grouped synthesis returned empty audio."
  else (pcm16ToWav finalPcm 24000).map fun w => { wav := w, lineChunks := chunks }

/-! ### Acquire/Release traces (claim C9)

A trace drives the allocator through acquisitions and releases; a release
names a previously issued lease by its position in the issue order, so that
value-identical leases stay distinguishable. -/

/-- One external allocator operation. -/
inductive AllocCmd where
  | acquire (modelCandidates keyPool : List String) (requestedTokens : Nat)
      (blockedKeys : List String) (waitTimeoutMs : Option Nat)
      (preferredKey : Option String) (t0 : Nat)
  | release (leaseIdx : Nat) (success : Bool) (usedTokens : Option Nat)
      (errorKind : String) (nowMs : Nat)
deriving DecidableEq, Repr

/-- Allocator state plus the ledger of issued leases and released positions. -/
structure TraceState where
  alloc : AllocState
  issued : List LaneLease
  released : List Nat

/-- Executing one command: an acquisition appends its lease (when one is
issued), a release of a valid position applies `release` to that lease. -/
def execCmd (al : Allocator) (s : TraceState) : AllocCmd → TraceState
  | .acquire mc kp req bk wt pk t0 =>
      let out := acquireForModels al mc kp req bk wt pk t0 s.alloc
      match out.2.lease with
      | some l => { alloc := out.1, issued := s.issued ++ [l], released := s.released }
      | none => { s with alloc := out.1 }
  | .release i success used err now =>
      match s.issued.get? i with
      | none => s
      | some l =>
          { alloc := releaseLease al s.alloc l success used err now,
            issued := s.issued, released := i :: s.released }

/-- Well-formedness of one command against the current ledger: a release must
name an issued lease that has not been released before. -/
def okCmd (s : TraceState) : AllocCmd → Bool
  | .acquire _ _ _ _ _ _ _ => true
  | .release i _ _ _ _ => decide (i < s.issued.length) && !s.released.contains i

/-- Well-formedness of a whole trace from a given state. -/
def traceOkFrom (al : Allocator) : TraceState → List AllocCmd → Bool
  | _, [] => true
  | s, c :: rest => okCmd s c && traceOkFrom al (execCmd al s c) rest

/-- The empty ledger over the freshly constructed allocator. -/
def initTraceState : TraceState :=
  { alloc := initAllocState, issued := [], released := [] }

/-- Running a trace from the initial state. -/
def execTrace (al : Allocator) (trace : List AllocCmd) : TraceState :=
  trace.foldl (execCmd al) initTraceState

/-- Counting the not-yet-released leases for a key, walking the issue list
with its position. -/
def outstandingAux (released : List Nat) (k : String) :
    List LaneLease → Nat → Nat
  | [], _ => 0
  | l :: rest, base =>
      (if ¬ released.contains base = true ∧ l.key = k then 1 else 0) +
        outstandingAux released k rest (base + 1)

/-- The number of outstanding (issued, unreleased) leases for a key. -/
def outstandingFor (s : TraceState) (k : String) : Nat :=
  outstandingAux s.released k s.issued 0

/-- The contribution of an acquisition result to a key's in-flight counter. -/
def leaseBump (lease? : Option LaneLease) (k : String) : Nat :=
  match lease? with
  | some l => if l.key = k then 1 else 0
  | none => 0

/-- The ledger invariant of claim C9: released positions are valid and
distinct, and each key's in-flight counter equals its outstanding leases. -/
def traceInvariant (s : TraceState) : Prop :=
  (∀ i ∈ s.released, i < s.issued.length) ∧ s.released.Nodup ∧
  (∀ k, keyInFlight s.alloc k = outstandingFor s k)

/-! ### Concrete fixtures used by counterexamples and witnesses -/

/-- A one-model configuration: rpm 1, tpm 10, window 60 s. -/
def cxConfig : AllocatorConfig :=
  { version := "v1", windowSeconds := 60, defaultWaitTimeoutMs := 8000,
    models := [("m", { modelId := "m", rpm := 1, tpm := 10, enabledFor := ["tts"] })],
    routes := [("tts", ["m"])] }

/-- The allocator over `cxConfig` with the default construction parameters. -/
def cxAllocator : Allocator := mkAllocator cxConfig 600000 500

/-- The `ModelLimit` of model "m" in `cxConfig`. -/
def cxModelLimit : ModelLimit := { modelId := "m", rpm := 1, tpm := 10, enabledFor := ["tts"] }

/-- A quota store with no documents at all. -/
def emptyQuotaStore : QuotaStore :=
  { entitlements := fun _ => none, monthly := fun _ => none,
    daily := fun _ => none, events := fun _ => none }

/-- A raw two-line map, deliberately out of index order. -/
def c7Raw : List LineEntry :=
  [{ lineIndex := 1, speaker := "B", text := "yo" },
   { lineIndex := 0, speaker := "A", text := "hi" }]

/-- A group result covering line 0. -/
def c7Res0 : GroupResult :=
  { groupIndex := 0, lines := [{ lineIndex := 0, speaker := "A", text := "hi" }],
    lineChunks := [[1, 2]], model := "m", speechMode := "multi", keyIndex := 0,
    splitMode := "", attempts := 1 }

/-- A group result covering line 1. -/
def c7Res1 : GroupResult :=
  { groupIndex := 1, lines := [{ lineIndex := 1, speaker := "B", text := "yo" }],
    lineChunks := [[3, 4]], model := "m", speechMode := "multi", keyIndex := 0,
    splitMode := "", attempts := 1 }

/-- The expected assembled output over `c7Raw` with `c7Res0` and `c7Res1`. -/
def c7Out : GroupedSynthOut :=
  { wav := { sampleRate := 24000, audioPayload := [1, 2, 3, 4] },
    lineChunks :=
      [{ lineIndex := 0, pcmBytes := [1, 2], splitMode := "duration",
         silenceFallback := false },
       { lineIndex := 1, pcmBytes := [3, 4], splitMode := "duration",
         silenceFallback := false }] }

/-! ## Theorems -/

/-! ### Claim C5: guardian admission decision order -/

/-- Claim C5 (counterexample).  The claim states that a soft-shedding
rejection carries the remaining shed time as its retry hint; the code clamps
the hint from below at 500 ms.  With 100 ms of shed time remaining
(`temporarySheddingUntilMs = 600`, `now = 500`) on an enforce-mode state with
5 in flight against a soft limit of 3, the payload carries 500, not 100. -/
theorem c5_soft_shed_retry_counterexample :
    (aiOpsThrottlePayload
        { mode := "enforce", maintenanceMode := false, inFlightTotal := 5,
          softLimit := 3, hardLimit := 10, temporarySheddingUntilMs := 600 }
        "/tts/synthesize" 500).map (fun p => p.retryAfterMs) ≠ some (600 - 500) := by
  decide

/-- Claim C5 (amended).  On every non-exempt path the admission check follows
the claimed decision order: maintenance mode rejects with reason
`maintenance_mode` and a 15 s hint even when the mode is not enforce; a
non-enforce mode otherwise admits; then `hard_concurrency_limit` with a 2 s
hint exactly when `inFlightTotal ≥ hardLimit`; else `soft_shedding` exactly
when `now < temporarySheddingUntilMs` and `inFlightTotal ≥ softLimit`, with
the remaining shed time clamped from below at 500 ms as the hint (the clamp is
the amendment). -/
theorem c5_admission_follows_decision_order (st : AiOpsAdmissionState) (path : String)
    (nowMs : Nat) (hexempt : aiOpsIsExemptPath path = false) :
    (aiOpsThrottlePayload st path nowMs).map (fun p => (p.reason, p.retryAfterMs)) =
      admissionDecisionSpec st nowMs := by
  unfold aiOpsThrottlePayload admissionDecisionSpec
  simp only [hexempt, Bool.false_eq_true, if_false, ge_iff_le]
  split_ifs <;> simp_all

/-- Witness for claim C5 at a concrete non-exempt state. -/
theorem c5_admission_follows_decision_order_witness :
    aiOpsIsExemptPath "/tts/synthesize" = false ∧
    (aiOpsThrottlePayload
        { mode := "enforce", maintenanceMode := false, inFlightTotal := 7,
          softLimit := 3, hardLimit := 6, temporarySheddingUntilMs := 0 }
        "/tts/synthesize" 100).map (fun p => (p.reason, p.retryAfterMs)) =
      admissionDecisionSpec
        { mode := "enforce", maintenanceMode := false, inFlightTotal := 7,
          softLimit := 3, hardLimit := 6, temporarySheddingUntilMs := 0 } 100 :=
  ⟨by decide,
   c5_admission_follows_decision_order
     { mode := "enforce", maintenanceMode := false, inFlightTotal := 7,
       softLimit := 3, hardLimit := 6, temporarySheddingUntilMs := 0 }
     "/tts/synthesize" 100 (by decide)⟩

/-! ### Claim C6: terminal error code classification -/

/-- When some attempt error reads as a timeout, the classifier loop returns
the key-pool-timeout code no matter the accumulated flags. -/
theorem classifyGo_of_timeout (l : List String) (a r n : Bool)
    (h : (l.any fun e => isTimeoutError (strTrim e)) = true) :
    classifyGo l a r n = errorCodeKeyPoolTimeout := by
  induction l generalizing a r n with
  | nil => simp at h
  | cons e rest ih =>
    cases ht : isTimeoutError (strTrim e) with
    | true => simp [classifyGo, ht]
    | false =>
      have hr : (rest.any fun e => isTimeoutError (strTrim e)) = true := by
        simpa [ht] using h
      cases ha : isAuthError (strTrim e) <;> cases hrl : isRateLimitError (strTrim e) <;>
        cases hn : isNoAudioNoise (strTrim e) <;>
          simp [classifyGo, ht, ha, hrl, hn, ih _ _ _ hr]

/-- When no attempt error reads as a timeout, the classifier loop reduces to
the three accumulated flags: some auth seen, some rate-limit seen, some
other non-noise failure seen. -/
theorem classifyGo_of_no_timeout (l : List String) (a r n : Bool)
    (h : (l.any fun e => isTimeoutError (strTrim e)) = false) :
    classifyGo l a r n =
      (if (a || l.any attemptIsAuth) && !(r || l.any attemptIsRate)
          && !(n || l.any attemptIsOtherFailure) then errorCodeAllKeysAuthFailed
       else if (r || l.any attemptIsRate) && !(a || l.any attemptIsAuth)
          && !(n || l.any attemptIsOtherFailure) then errorCodeAllKeysRateLimited
       else errorCodeUpstreamModelFailed) := by
  induction l generalizing a r n with
  | nil => simp [classifyGo]
  | cons e rest ih =>
    have ht : isTimeoutError (strTrim e) = false := by
      by_contra hc
      simp only [Bool.not_eq_false] at hc
      simp [List.any_cons, hc] at h
    have hrest : (rest.any fun e => isTimeoutError (strTrim e)) = false := by
      simpa [ht] using h
    cases ha : isAuthError (strTrim e) <;> cases hrl : isRateLimitError (strTrim e) <;>
      cases hn : isNoAudioNoise (strTrim e) <;>
        simp [classifyGo, ht, ha, hrl, hn, ih _ _ _ hrest, attemptIsAuth, attemptIsRate,
          attemptIsNoise, attemptIsOtherFailure, Bool.or_assoc, Bool.or_comm,
          Bool.or_left_comm]

/-- Claim C6 (counterexample).  The claim keys `KEY_POOL_TIMEOUT` on the LAST
attempt error being a timeout; the code returns it when ANY attempt error is a
timeout.  With attempts ["request timed out", "unauthorized key"] and no
overall timeout, the claim's reading yields `UPSTREAM_MODEL_FAILED` while the
code returns `KEY_POOL_TIMEOUT`. -/
theorem c6_terminal_code_counterexample :
    claimedTerminalErrorCode ["request timed out", "unauthorized key"] false ≠
      classifyTerminalErrorCode ["request timed out", "unauthorized key"] false ∧
    classifyTerminalErrorCode ["request timed out", "unauthorized key"] false =
      errorCodeKeyPoolTimeout := by
  constructor <;> decide

/-- Per-attempt Boolean identity: not-rate and not-other together mean auth or
noise. -/
theorem attemptBoolAuth (x : String) :
    (!attemptIsRate x && !attemptIsOtherFailure x) = (attemptIsAuth x || attemptIsNoise x) := by
  unfold attemptIsAuth attemptIsRate attemptIsNoise attemptIsOtherFailure
  cases isAuthError (strTrim x) <;> cases isRateLimitError (strTrim x) <;>
    cases isNoAudioNoise (strTrim x) <;> rfl

/-- Per-attempt Boolean identity: not-auth and not-other together mean
rate-limit or noise. -/
theorem attemptBoolRate (x : String) :
    (!attemptIsAuth x && !attemptIsOtherFailure x) = (attemptIsRate x || attemptIsNoise x) := by
  unfold attemptIsAuth attemptIsRate attemptIsNoise attemptIsOtherFailure
  cases isAuthError (strTrim x) <;> cases isRateLimitError (strTrim x) <;>
    cases isNoAudioNoise (strTrim x) <;> rfl

/-- Seeing neither a rate-limit nor an other failure is the same as every
attempt being auth or noise. -/
theorem notAnyRateOther (l : List String) :
    (!(l.any attemptIsRate) && !(l.any attemptIsOtherFailure))
      = (l.all fun e => attemptIsAuth e || attemptIsNoise e) := by
  induction l with
  | nil => rfl
  | cons x xs ih =>
    simp only [List.any_cons, List.all_cons, Bool.not_or]
    rw [← ih, ← attemptBoolAuth x]
    cases attemptIsRate x <;> cases attemptIsOtherFailure x <;>
      cases xs.any attemptIsRate <;> cases xs.any attemptIsOtherFailure <;> rfl

/-- Seeing neither an auth nor an other failure is the same as every attempt
being rate-limit or noise. -/
theorem notAnyAuthOther (l : List String) :
    (!(l.any attemptIsAuth) && !(l.any attemptIsOtherFailure))
      = (l.all fun e => attemptIsRate e || attemptIsNoise e) := by
  induction l with
  | nil => rfl
  | cons x xs ih =>
    simp only [List.any_cons, List.all_cons, Bool.not_or]
    rw [← ih, ← attemptBoolRate x]
    cases attemptIsAuth x <;> cases attemptIsOtherFailure x <;>
      cases xs.any attemptIsAuth <;> cases xs.any attemptIsOtherFailure <;> rfl

/-- Claim C6 (amended).  The exhausted-request classifier returns
`KEY_POOL_TIMEOUT` exactly when the overall budget elapsed or ANY attempt
error reads as a timeout; otherwise `ALL_KEYS_AUTH_FAILED` exactly when some
attempt classified as auth and every attempt is auth or the no-audio noise
marker; `ALL_KEYS_RATE_LIMITED` symmetrically for rate limits; and
`UPSTREAM_MODEL_FAILED` for anything else, including an empty attempt list. -/
theorem c6_terminal_error_classification (attempts : List String) (timedOut : Bool) :
    (classifyTerminalErrorCode attempts timedOut = errorCodeKeyPoolTimeout ↔
      timedOut = true ∨ (attempts.any fun e => isTimeoutError (strTrim e)) = true) ∧
    (timedOut = false → (attempts.any fun e => isTimeoutError (strTrim e)) = false →
      (classifyTerminalErrorCode attempts timedOut = errorCodeAllKeysAuthFailed ↔
        ((attempts.any attemptIsAuth) = true ∧
         (attempts.all fun e => attemptIsAuth e || attemptIsNoise e) = true)) ∧
      (classifyTerminalErrorCode attempts timedOut = errorCodeAllKeysRateLimited ↔
        ((attempts.any attemptIsRate) = true ∧
         (attempts.all fun e => attemptIsRate e || attemptIsNoise e) = true))) := by
  constructor
  · cases timedOut with
    | true => simp [classifyTerminalErrorCode]
    | false =>
      simp only [Bool.false_eq_true, false_or]
      cases hT : attempts.any fun e => isTimeoutError (strTrim e) with
      | true =>
        simp only [hT, iff_true]
        cases attempts with
        | nil => simp at hT
        | cons e rest =>
          rw [classifyTerminalErrorCode, if_neg (by simp), if_neg (by simp)]
          exact classifyGo_of_timeout _ _ _ _ hT
      | false =>
        constructor
        · intro hcode
          exfalso
          cases attempts with
          | nil =>
            rw [classifyTerminalErrorCode, if_neg (by simp), if_pos (by simp)] at hcode
            exact absurd hcode (by decide)
          | cons e rest =>
            rw [classifyTerminalErrorCode, if_neg (by simp), if_neg (by simp),
              classifyGo_of_no_timeout _ _ _ _ hT] at hcode
            revert hcode
            split_ifs <;> intro hcode <;> exact absurd hcode (by decide)
        · intro h
          exact absurd h (by decide)
  · intro htO hT
    subst htO
    cases attempts with
    | nil =>
      refine ⟨⟨fun h => ?_, fun h => ?_⟩, ⟨fun h => ?_, fun h => ?_⟩⟩
      · rw [classifyTerminalErrorCode, if_neg (by simp), if_pos (by simp)] at h
        exact absurd h (by decide)
      · exact absurd h.1 (by simp)
      · rw [classifyTerminalErrorCode, if_neg (by simp), if_pos (by simp)] at h
        exact absurd h (by decide)
      · exact absurd h.1 (by simp)
    | cons e rest =>
      rw [classifyTerminalErrorCode, if_neg (by simp), if_neg (by simp),
        classifyGo_of_no_timeout _ _ _ _ hT]
      simp only [Bool.false_or]
      rw [Bool.and_assoc, notAnyRateOther, Bool.and_assoc, notAnyAuthOther]
      constructor
      · constructor
        · intro h
          revert h
          split_ifs with h1 h2
          · intro _
            simp only [Bool.and_eq_true] at h1
            exact h1
          · intro h
            exact absurd h (by decide)
          · intro h
            exact absurd h (by decide)
        · rintro ⟨ha, hall⟩
          rw [if_pos (by rw [ha, hall]; rfl)]
      · constructor
        · intro h
          revert h
          split_ifs with h1 h2
          · intro h
            exact absurd h (by decide)
          · intro _
            simp only [Bool.and_eq_true] at h2
            exact h2
          · intro h
            exact absurd h (by decide)
        · rintro ⟨hr, hall⟩
          have hnotauth :
              ¬ (((e :: rest).any attemptIsAuth &&
                  (e :: rest).all fun x => attemptIsAuth x || attemptIsNoise x) = true) := by
            intro hc
            simp only [Bool.and_eq_true] at hc
            obtain ⟨hha, _⟩ := hc
            obtain ⟨x, hx, hxa⟩ := List.any_eq_true.mp hha
            have hxr := List.all_eq_true.mp hall x hx
            unfold attemptIsAuth at hxa
            unfold attemptIsRate attemptIsNoise at hxr
            rw [hxa] at hxr
            simp at hxr
          rw [if_neg hnotauth, if_pos (by rw [hr, hall]; rfl)]

/-- Witness for claim C6 at a concrete all-auth attempt list. -/
theorem c6_terminal_error_classification_witness :
    classifyTerminalErrorCode ["401 unauthorized", "forbidden"] false =
      errorCodeAllKeysAuthFailed :=
  ((c6_terminal_error_classification ["401 unauthorized", "forbidden"] false).2
      (by decide) (by decide)).1.mpr ⟨by decide, by decide⟩

/-! ### Claims C2-C4: quota reservation -/

/-- Reading a map at the key just written. -/
theorem setMap_same {α : Type} (f : String → Option α) (k : String) (v : α) :
    setMap f k v k = some v := by
  simp [setMap]

/-- Reading a map away from the key just written. -/
theorem setMap_of_ne {α : Type} (f : String → Option α) (k v x) (h : x ≠ k) :
    setMap f k v x = f x := by
  simp [setMap, h]

/-- Overwriting a key twice keeps only the second write. -/
theorem setMap_setMap {α : Type} (f : String → Option α) (k : String) (v w : α) :
    setMap (setMap f k v) k w = setMap f k w :=
  funext fun x => by by_cases h : x = k <;> simp [setMap, h]

/-- Writing back the stored value changes nothing. -/
theorem setMap_self {α : Type} (f : String → Option α) (k : String) (v : α)
    (h : f k = some v) : setMap f k v = f :=
  funext fun x => by by_cases hx : x = k <;> simp [setMap, hx, h]

/-- Claim C2.  Reserve is idempotent: when Reserve returned ok, an immediately
repeated Reserve with the same `(uid, requestId)` returns the already-reserved
snapshot of the same event and windows and leaves the store exactly as it was,
so the monthly and daily counters are unchanged. -/
theorem c2_reserve_reserve_idempotent (store : QuotaStore)
    (uid requestId engine : String) (charCount : Int) (monthKey dayKey : String)
    (s1 : QuotaStore) (r : ReserveOk)
    (h : reserveUsage store uid requestId engine charCount monthKey dayKey = (s1, .ok r)) :
    reserveUsage s1 uid requestId engine charCount monthKey dayKey =
      (s1, .ok { alreadyReserved := true, event := r.event,
                 monthly := r.monthly, daily := r.daily }) := by
  rcases hev : store.events (uid ++ "_" ++ requestId) with _ | ev
  · simp only [reserveUsage, hev] at h
    rw [reserveUsageApply] at h
    split_ifs at h with hm hd
    · exact absurd h (by simp)
    · exact absurd h (by simp)
    · injection h with hs hr
      injection hr with hr
      subst hs
      subst hr
      simp [reserveUsage, reserveUsageApply, reserveEventPayload, setMap_same,
        setMap_setMap]
  · simp only [reserveUsage, hev] at h
    by_cases hst : ev.status = "reserved" ∨ ev.status = "committed"
    · rw [if_pos hst] at h
      injection h with hs hr
      injection hr with hr
      subst hs
      subst hr
      simp [reserveUsage, hev, hst, setMap_same, setMap_setMap]
    · rw [if_neg hst] at h
      rw [reserveUsageApply] at h
      split_ifs at h with hm hd
      · exact absurd h (by simp)
      · exact absurd h (by simp)
      · injection h with hs hr
        injection hr with hr
        subst hs
        subst hr
        simp [reserveUsage, reserveUsageApply, reserveEventPayload, setMap_same,
          setMap_setMap]

/-- Witness for claim C2: a fresh reservation on the empty store followed by a
second identical reservation. -/
theorem c2_reserve_reserve_idempotent_witness :
    reserveUsage
        (reserveUsage emptyQuotaStore "u1" "r1" "GEM" 10 "202601" "20260115").1
        "u1" "r1" "GEM" 10 "202601" "20260115" =
      ((reserveUsage emptyQuotaStore "u1" "r1" "GEM" 10 "202601" "20260115").1,
       .ok { alreadyReserved := true,
             event := { uid := "u1", requestId := "r1", status := "reserved",
                        engine := "GEM", chars := 10, vfCost := 30,
                        monthDocId := "u1_202601", dayDocId := "u1_20260115",
                        error := "" },
             monthly := { vfUsed := 30, generationCount := 1, gem := ⟨10, 30⟩,
                          kokoro := ⟨0, 0⟩ },
             daily := { vfUsed := 30, generationCount := 1, gem := ⟨10, 30⟩,
                        kokoro := ⟨0, 0⟩ } }) :=
  c2_reserve_reserve_idempotent emptyQuotaStore "u1" "r1" "GEM" 10 "202601" "20260115"
    _ _ rfl

/-- The sanitized engine is one of the two configured engines. -/
theorem safeEngineOf_cases (engine : String) :
    safeEngineOf engine = "GEM" ∨ safeEngineOf engine = "KOKORO" := by
  unfold safeEngineOf
  by_cases h1 : strUpper (strTrim engine) = "GEM"
  · left
    simp [h1, vfEngineRates]
  · by_cases h2 : strUpper (strTrim engine) = "KOKORO"
    · right
      simp [h2, vfEngineRates]
    · left
      have b1 : (strUpper (strTrim engine) == "GEM") = false :=
        beq_eq_false_iff_ne.mpr h1
      have b2 : (strUpper (strTrim engine) == "KOKORO") = false :=
        beq_eq_false_iff_ne.mpr h2
      have hnone : vfEngineRates.lookup (strUpper (strTrim engine)) = none := by
        simp [vfEngineRates, List.lookup, b1, b2]
      simp [hnone]

/-- Reverting exactly the amounts Reserve added restores the window. -/
theorem revert_reserve_window (w : UsageWindow) (e : String) (c v : Nat) :
    revertWindow (reserveWindowUpdate w e c v) e v c = w := by
  obtain ⟨a, b, ⟨gc, gv⟩, ⟨kc, kv⟩⟩ := w
  unfold revertWindow reserveWindowUpdate UsageWindow.engineUsage UsageWindow.setEngineUsage
  by_cases he : e = "KOKORO" <;> simp [he]

/-- Claim C3.  A fresh Reserve followed by a revert (finalize with
success=false while the event is still `reserved`) restores every monthly and
daily counter snapshot to its pre-Reserve value, and only the usage-event
record (now `reverted`, carrying the error detail) remains changed in the
event store. -/
theorem c3_reserve_then_revert_restores_counters (store : QuotaStore)
    (uid requestId engine : String) (charCount : Int) (monthKey dayKey : String)
    (s1 : QuotaStore) (r : ReserveOk) (errDetail : String)
    (h : reserveUsage store uid requestId engine charCount monthKey dayKey = (s1, .ok r))
    (hfresh : r.alreadyReserved = false) :
    (∀ d, windowSnapshot (finalizeUsage s1 uid requestId false errDetail).monthly d =
        windowSnapshot store.monthly d) ∧
    (∀ d, windowSnapshot (finalizeUsage s1 uid requestId false errDetail).daily d =
        windowSnapshot store.daily d) ∧
    (finalizeUsage s1 uid requestId false errDetail).events (uid ++ "_" ++ requestId) =
      some { r.event with status := "reverted", error := errDetail } ∧
    (∀ d, d ≠ uid ++ "_" ++ requestId →
      (finalizeUsage s1 uid requestId false errDetail).events d = store.events d) := by
  have hE := safeEngineOf_cases engine
  have hEup : strUpper (safeEngineOf engine) = safeEngineOf engine := by
    rcases hE with hE | hE <;> rw [hE] <;> decide
  have hEne : ¬ safeEngineOf engine = "" := by
    rcases hE with hE | hE <;> rw [hE] <;> decide
  rcases hev : store.events (uid ++ "_" ++ requestId) with _ | ev
  · simp only [reserveUsage, hev] at h
    rw [reserveUsageApply] at h
    split_ifs at h with hm hd
    · exact absurd h (by simp)
    · exact absurd h (by simp)
    · injection h with hs hr
      injection hr with hr
      subst hs
      subst hr
      refine ⟨?_, ?_, ?_, ?_⟩
      · intro d
        by_cases hd' : d = uid ++ "_" ++ monthKey
        · subst hd'
          simp [finalizeUsage, setMap_same, reserveEventPayload, hEne, hEup,
            setMap_setMap, windowSnapshot, revert_reserve_window]
        · simp [finalizeUsage, setMap_same, reserveEventPayload, hEne, hEup,
            setMap_setMap, windowSnapshot, setMap_of_ne _ _ _ _ hd']
      · intro d
        by_cases hd' : d = uid ++ "_" ++ dayKey
        · subst hd'
          simp [finalizeUsage, setMap_same, reserveEventPayload, hEne, hEup,
            setMap_setMap, windowSnapshot, revert_reserve_window]
        · simp [finalizeUsage, setMap_same, reserveEventPayload, hEne, hEup,
            setMap_setMap, windowSnapshot, setMap_of_ne _ _ _ _ hd']
      · simp [finalizeUsage, setMap_same, reserveEventPayload, hEne, hEup, setMap_setMap]
      · intro d hd'
        simp [finalizeUsage, setMap_same, reserveEventPayload, hEne, hEup,
          setMap_setMap, setMap_of_ne _ _ _ _ hd']
  · simp only [reserveUsage, hev] at h
    by_cases hst : ev.status = "reserved" ∨ ev.status = "committed"
    · rw [if_pos hst] at h
      injection h with hs hr
      injection hr with hr
      subst hs
      rw [← hr] at hfresh
      exact absurd hfresh (by simp)
    · rw [if_neg hst] at h
      rw [reserveUsageApply] at h
      split_ifs at h with hm hd
      · exact absurd h (by simp)
      · exact absurd h (by simp)
      · injection h with hs hr
        injection hr with hr
        subst hs
        subst hr
        refine ⟨?_, ?_, ?_, ?_⟩
        · intro d
          by_cases hd' : d = uid ++ "_" ++ monthKey
          · subst hd'
            simp [finalizeUsage, setMap_same, reserveEventPayload, hEne, hEup,
              setMap_setMap, windowSnapshot, revert_reserve_window]
          · simp [finalizeUsage, setMap_same, reserveEventPayload, hEne, hEup,
              setMap_setMap, windowSnapshot, setMap_of_ne _ _ _ _ hd']
        · intro d
          by_cases hd' : d = uid ++ "_" ++ dayKey
          · subst hd'
            simp [finalizeUsage, setMap_same, reserveEventPayload, hEne, hEup,
              setMap_setMap, windowSnapshot, revert_reserve_window]
          · simp [finalizeUsage, setMap_same, reserveEventPayload, hEne, hEup,
              setMap_setMap, windowSnapshot, setMap_of_ne _ _ _ _ hd']
        · simp [finalizeUsage, setMap_same, reserveEventPayload, hEne, hEup, setMap_setMap]
        · intro d hd'
          simp [finalizeUsage, setMap_same, reserveEventPayload, hEne, hEup,
            setMap_setMap, setMap_of_ne _ _ _ _ hd']

/-- Witness for claim C3: reserve 10 GEM characters on the empty store, revert,
and observe the monthly snapshot restored. -/
theorem c3_reserve_then_revert_restores_counters_witness :
    windowSnapshot
        (finalizeUsage (reserveUsage emptyQuotaStore "u1" "r1" "GEM" 10 "202601"
            "20260115").1 "u1" "r1" false "boom").monthly "u1_202601" =
      windowSnapshot emptyQuotaStore.monthly "u1_202601" :=
  (c3_reserve_then_revert_restores_counters emptyQuotaStore "u1" "r1" "GEM" 10 "202601"
      "20260115" _ _ "boom" rfl rfl).1 "u1_202601"

/-- Claim C4.  When no reserved/committed event exists for the request id,
Reserve aborts with the monthly-exceeded error (HTTP 429) as soon as
`monthly.vfUsed + vfCost` exceeds the monthly limit; otherwise it aborts with
the daily-exceeded error (HTTP 429) when `daily.generationCount + 1` exceeds
the daily limit; in both failure cases the monthly windows, daily windows and
usage-event store are left exactly as they were. -/
theorem c4_reserve_abort_atomic (store : QuotaStore)
    (uid requestId engine : String) (charCount : Int) (monthKey dayKey : String)
    (hev : ∀ ev, store.events (uid ++ "_" ++ requestId) = some ev →
      ev.status ≠ "reserved" ∧ ev.status ≠ "committed") :
    (asPositiveInt ((store.entitlements uid).getD defaultEntitlement).monthlyVfLimit <
        (windowSnapshot store.monthly (uid ++ "_" ++ monthKey)).vfUsed +
          asPositiveInt charCount * engineRateOf engine →
      (reserveUsage store uid requestId engine charCount monthKey dayKey).2 =
        .error .monthlyVfExceeded ∧
      (reserveUsage store uid requestId engine charCount monthKey dayKey).1.monthly =
        store.monthly ∧
      (reserveUsage store uid requestId engine charCount monthKey dayKey).1.daily =
        store.daily ∧
      (reserveUsage store uid requestId engine charCount monthKey dayKey).1.events =
        store.events) ∧
    (¬ (asPositiveInt ((store.entitlements uid).getD defaultEntitlement).monthlyVfLimit <
        (windowSnapshot store.monthly (uid ++ "_" ++ monthKey)).vfUsed +
          asPositiveInt charCount * engineRateOf engine) →
      asPositiveInt ((store.entitlements uid).getD defaultEntitlement).dailyGenerationLimit <
        (windowSnapshot store.daily (uid ++ "_" ++ dayKey)).generationCount + 1 →
      (reserveUsage store uid requestId engine charCount monthKey dayKey).2 =
        .error .dailyGenerationExceeded ∧
      (reserveUsage store uid requestId engine charCount monthKey dayKey).1.monthly =
        store.monthly ∧
      (reserveUsage store uid requestId engine charCount monthKey dayKey).1.daily =
        store.daily ∧
      (reserveUsage store uid requestId engine charCount monthKey dayKey).1.events =
        store.events) ∧
    QuotaError.monthlyVfExceeded.statusCode = 429 ∧
    QuotaError.dailyGenerationExceeded.statusCode = 429 := by
  refine ⟨?_, ?_, rfl, rfl⟩
  · intro hm
    rcases hevv : store.events (uid ++ "_" ++ requestId) with _ | ev
    · simp only [reserveUsage, hevv, windowSnapshot] at hm ⊢
      rw [reserveUsageApply, if_pos hm]
      exact ⟨rfl, rfl, rfl, rfl⟩
    · have hst := hev ev hevv
      simp only [reserveUsage, hevv, windowSnapshot] at hm ⊢
      rw [if_neg (by simp [hst.1, hst.2]), reserveUsageApply, if_pos hm]
      exact ⟨rfl, rfl, rfl, rfl⟩
  · intro hm hd
    rcases hevv : store.events (uid ++ "_" ++ requestId) with _ | ev
    · simp only [reserveUsage, hevv, windowSnapshot] at hm hd ⊢
      rw [reserveUsageApply, if_neg hm, if_pos hd]
      exact ⟨rfl, rfl, rfl, rfl⟩
    · have hst := hev ev hevv
      simp only [reserveUsage, hevv, windowSnapshot] at hm hd ⊢
      rw [if_neg (by simp [hst.1, hst.2]), reserveUsageApply, if_neg hm, if_pos hd]
      exact ⟨rfl, rfl, rfl, rfl⟩

/-- Witness for claim C4: a user with the default Free entitlement
(8000 monthly VF) reserving 3000 GEM characters (9000 VF) on the empty store
is rejected with the monthly error and the stores stay empty. -/
theorem c4_reserve_abort_atomic_witness :
    (reserveUsage emptyQuotaStore "u1" "r1" "GEM" 3000 "202601" "20260115").2 =
        .error .monthlyVfExceeded ∧
    (reserveUsage emptyQuotaStore "u1" "r1" "GEM" 3000 "202601" "20260115").1.monthly =
        emptyQuotaStore.monthly :=
  let h := c4_reserve_abort_atomic emptyQuotaStore "u1" "r1" "GEM" 3000 "202601"
    "20260115" (fun ev hev => by simp [emptyQuotaStore] at hev)
  ⟨(h.1 (by decide)).1, (h.1 (by decide)).2.1⟩

/-! ### Claim C1: allocator lane capacity invariant -/

/-- The window-roll check preserves the capacity bound (a reset zeroes all
four counters). -/
theorem laneCapacityInvariant_reset (al : Allocator) (limit : ModelLimit)
    (lane : LaneState) (nowMs : Nat) (h : laneCapacityInvariant limit lane) :
    laneCapacityInvariant limit (resetLaneIfWindowRolled al lane nowMs) := by
  unfold laneCapacityInvariant at *
  unfold resetLaneIfWindowRolled
  split_ifs <;> simp_all

/-- Claim C1 (counterexample).  The invariant `counted + in-flight ≤ budget`
does not hold between arbitrary allocator operations.  Scenario A: one
acquisition of 5 tokens on a lane with tpm 10 released with `usedTokens = 100`
leaves counted tokens 100 > 10.  Scenario B: a lease acquired in one window
and released after the window rolled over (which zeroed the in-flight
counters) makes counted requests 2 > rpm 1 in the new window, even with
`usedTokens ≤ reservedTokens`. -/
theorem c1_lane_capacity_counterexample :
    ((acquireForModels cxAllocator ["m"] ["k"] 5 [] (some 8000) none 100000
        initAllocState).2.lease
      = some { key := "k", modelId := "m", keyIndex := 0, modelIndex := 0,
               reservedTokens := 5, reservedAtMs := 100000 } ∧
     ¬ laneCapacityInvariant cxModelLimit
        (laneOf (releaseLease cxAllocator
            (acquireForModels cxAllocator ["m"] ["k"] 5 [] (some 8000) none 100000
              initAllocState).1
            { key := "k", modelId := "m", keyIndex := 0, modelIndex := 0,
              reservedTokens := 5, reservedAtMs := 100000 } true (some 100) ""
            100000) "k" "m")) ∧
    ((acquireForModels cxAllocator ["m"] ["k"] 1 [] (some 8000) none 160000
        (acquireForModels cxAllocator ["m"] ["k"] 1 [] (some 8000) none 100000
          initAllocState).1).2.lease
      = some { key := "k", modelId := "m", keyIndex := 0, modelIndex := 0,
               reservedTokens := 1, reservedAtMs := 160000 } ∧
     ¬ laneCapacityInvariant cxModelLimit
        (laneOf
          (releaseLease cxAllocator
            (releaseLease cxAllocator
              (acquireForModels cxAllocator ["m"] ["k"] 1 [] (some 8000) none 160000
                (acquireForModels cxAllocator ["m"] ["k"] 1 [] (some 8000) none 100000
                  initAllocState).1).1
              { key := "k", modelId := "m", keyIndex := 0, modelIndex := 0,
                reservedTokens := 1, reservedAtMs := 100000 } true none "" 160000)
            { key := "k", modelId := "m", keyIndex := 0, modelIndex := 0,
              reservedTokens := 1, reservedAtMs := 160000 } true none "" 160000)
          "k" "m")) := by
  simp only [laneCapacityInvariant]
  refine ⟨⟨by decide, by decide⟩, by decide, by decide⟩

/-- Claim C1 (amended).  Every lane operation (acquisition attempt, release,
external rate-limit strike, snapshot window check) preserves
`counted + in-flight ≤ rpm/tpm`, provided each release reports no more used
tokens than reserved and finds the lease's in-flight contribution still in the
lane after the window-roll check, i.e. the lease does not straddle a window
rollover and `usedTokens ≤ reservedTokens`. -/
theorem c1_lane_capacity_preserved (al : Allocator) (limit : ModelLimit)
    (lane : LaneState) (op : LaneOp) (hInv : laneCapacityInvariant limit lane)
    (hOk : laneOpOk al lane op) :
    laneCapacityInvariant limit (laneExec al limit lane op) := by
  cases op with
  | acquire req now authUntil =>
    have hres := laneCapacityInvariant_reset al limit lane now hInv
    simp only [laneExec]
    split_ifs with hw
    · set l1 := resetLaneIfWindowRolled al lane now with hl1
      unfold laneReadyWaitMs at hw
      split_ifs at hw with h1 h2 h3 h4
      · exact absurd hw (by positivity)
      · exact absurd hw (by positivity)
      · exact absurd hw (by positivity)
      · exact absurd hw (by positivity)
      · unfold laneCapacityInvariant laneAcquireBump
        simp only [not_lt] at h3 h4
        constructor <;> simp <;> omega
    · exact hres
  | release success reserved used err now =>
    have hres := laneCapacityInvariant_reset al limit lane now hInv
    simp only [laneOpOk] at hOk
    obtain ⟨hsafe, htok, hreq⟩ := hOk
    simp only [laneExec]
    rw [hsafe]
    unfold laneCapacityInvariant laneReleaseApply at *
    split_ifs <;> simp_all <;> omega
  | markRateLimited now =>
    have hres := laneCapacityInvariant_reset al limit lane now hInv
    simp only [laneExec]
    unfold laneCapacityInvariant laneMarkRateLimitedApply at *
    simpa using hres
  | snapshotInspect now =>
    exact laneCapacityInvariant_reset al limit lane now hInv

/-- Witness for claim C1: a well-paired release on a compliant lane keeps the
bound. -/
theorem c1_lane_capacity_preserved_witness :
    laneCapacityInvariant cxModelLimit
      (laneExec cxAllocator cxModelLimit
        { windowStartedMs := 0, requests := 0, tokens := 0, inFlightRequests := 1,
          inFlightTokens := 5, tempBlockUntilMs := 0, successTotal := 0,
          failureTotal := 0, rateLimitedTotal := 0 }
        (.release true 5 (some 3) "" 0)) :=
  c1_lane_capacity_preserved cxAllocator cxModelLimit
    { windowStartedMs := 0, requests := 0, tokens := 0, inFlightRequests := 1,
      inFlightTokens := 5, tempBlockUntilMs := 0, successTotal := 0,
      failureTotal := 0, rateLimitedTotal := 0 }
    (.release true 5 (some 3) "" 0) ⟨by decide, by decide⟩
    ⟨by decide, by decide, by decide⟩

/-! ### Claim C10: acquire_for_task with a fully blocked route -/

/-- Claim C10.  When the task's route is empty or every route model is in the
blocked set, `acquire_for_task` returns immediately with no lease,
`timedOut = true`, `waitedMs = 0` and `retryAfterMs = 0` (no retry hint), and
the allocator state — lanes, key states and the round-robin cursor — is
untouched. -/
theorem c10_acquire_for_task_blocked_route (al : Allocator) (task : String)
    (keyPool : List String) (requestedTokens : Nat)
    (blockedKeys blockedModels : List String) (waitTimeoutMs : Option Nat)
    (preferredKey : Option String) (t0 : Nat) (st : AllocState)
    (hblocked : ∀ m ∈ (al.config.routes.lookup (strLower (strTrim task))).getD [],
      ((blockedModels.map strTrim).filter (fun k => k ≠ "")).contains m = true) :
    acquireForTask al task keyPool requestedTokens blockedKeys blockedModels
        waitTimeoutMs preferredKey t0 st
      = (st, { lease := none, waitedMs := 0, retryAfterMs := 0, timedOut := true }) := by
  unfold acquireForTask
  have hcand : ((al.config.routes.lookup (strLower (strTrim task))).getD []).filter
      (fun m => !((blockedModels.map strTrim).filter (fun k => k ≠ "")).contains m)
        = [] := by
    rw [List.filter_eq_nil_iff]
    intro a ha
    rw [hblocked a ha]
    decide
  simp only [acquireForTask]
  rw [hcand]
  rfl

/-- Witness for claim C10: the single-model tts route with its model blocked. -/
theorem c10_acquire_for_task_blocked_route_witness :
    acquireForTask cxAllocator "tts" ["k"] 1 [] ["m"] (some 5000) none 0 initAllocState
      = (initAllocState,
         { lease := none, waitedMs := 0, retryAfterMs := 0, timedOut := true }) :=
  c10_acquire_for_task_blocked_route cxAllocator "tts" ["k"] 1 [] ["m"] (some 5000)
    none 0 initAllocState (by decide)

/-! ### Claim C8: acquisition terminates within the wait budget -/

/-- Claim C8 (counterexample).  The claim promises return "after at most the
timeout of total waiting"; the code clamps the wait budget from below at
1000 ms, so a call with `waitTimeoutMs = 1` still waits 1000 ms. -/
theorem c8_wait_budget_counterexample :
    (acquireForModels cxAllocator [] [] 0 [] (some 1) none 0 initAllocState).2.waitedMs
        = 1000 ∧
    ¬ ((acquireForModels cxAllocator [] [] 0 [] (some 1) none 0
        initAllocState).2.waitedMs ≤ 1) := by
  constructor <;> decide

/-- The nearest-wait accumulator of one scan pass stays strictly positive. -/
theorem scanGo_nearest_pos (al : Allocator) (keyPool blockedKeySet : List String)
    (req nowMs : Nat) :
    ∀ (pairs : List (Nat × String × Nat)) (st : AllocState) (acc : Option Nat),
      (∀ w, acc = some w → 0 < w) →
      ∀ w, (scanGo al keyPool blockedKeySet req nowMs pairs st acc).2.2 = some w → 0 < w := by
  intro pairs
  induction pairs with
  | nil =>
    intro st acc hacc w hw
    exact hacc w hw
  | cons p rest ih =>
    obtain ⟨mi, m, ki⟩ := p
    intro st acc hacc w hw
    simp only [scanGo] at hw
    split at hw
    · exact ih st acc hacc w hw
    · split at hw
      · exact ih st acc hacc w hw
      · split at hw
        · rename_i hwz
          refine ih _ _ ?_ w hw
          intro w' hw'
          injection hw' with hw'
          subst hw'
          cases acc with
          | none => exact Nat.pos_of_ne_zero hwz
          | some n =>
            have hn := hacc n rfl
            have hpos := Nat.pos_of_ne_zero hwz
            simp only [Nat.lt_min]
            exact ⟨hn, hpos⟩
        · exact hacc w hw

/-- Loop lemma for `acquireGo`: with enough fuel, the accumulated wait never
exceeds the clamped budget, a timeout result carries no lease and reports the
last computed nearest wait, a success result is not timed out, and the nearest
wait (when present) is strictly positive. -/
theorem acquireGo_spec (al : Allocator) (mc kp bks : List String) (req : Nat)
    (pref : String) (t0 T : Nat) :
    ∀ (fuel : Nat) (st : AllocState) (elapsed : Nat), elapsed ≤ T → T - elapsed < fuel →
      ((acquireGo al mc kp bks req pref t0 T fuel st elapsed).2.1.waitedMs ≤ T) ∧
      ((acquireGo al mc kp bks req pref t0 T fuel st elapsed).2.1.timedOut = true ↔
        (acquireGo al mc kp bks req pref t0 T fuel st elapsed).2.1.lease = none) ∧
      ((acquireGo al mc kp bks req pref t0 T fuel st elapsed).2.1.timedOut = true →
        (acquireGo al mc kp bks req pref t0 T fuel st elapsed).2.1.retryAfterMs =
          ((acquireGo al mc kp bks req pref t0 T fuel st elapsed).2.2).getD 0) ∧
      (∀ w, (acquireGo al mc kp bks req pref t0 T fuel st elapsed).2.2 = some w → 0 < w) := by
  intro fuel
  induction fuel with
  | zero =>
    intro st elapsed h1 h2
    omega
  | succ fuel ih =>
    intro st elapsed h1 h2
    simp only [acquireGo]
    split
    · rename_i st1 lease nearest heq
      have hpos : ∀ w, nearest = some w → 0 < w := fun w hw =>
        scanGo_nearest_pos al kp bks req (t0 + elapsed) _ st none
          (fun w h => by simp at h) w (by rw [heq]; exact hw)
      exact ⟨h1, by simp, by simp, hpos⟩
    · rename_i st1 nearest heq
      have hpos : ∀ w, nearest = some w → 0 < w := fun w hw =>
        scanGo_nearest_pos al kp bks req (t0 + elapsed) _ st none
          (fun w h => by simp at h) w (by rw [heq]; exact hw)
      by_cases hto : T ≤ elapsed
      · rw [if_pos hto]
        exact ⟨h1, by simp, fun _ => rfl, hpos⟩
      · rw [if_neg hto]
        by_cases hs :
            min (min (max 100 (nearest.getD al.waitSliceMs)) al.waitSliceMs) (T - elapsed)
              = 0
        · rw [if_pos hs]
          exact ⟨h1, by simp, fun _ => rfl, hpos⟩
        · rw [if_neg hs]
          refine ih st1 _ ?_ ?_
          · have := Nat.min_le_right
              (min (max 100 (nearest.getD al.waitSliceMs)) al.waitSliceMs) (T - elapsed)
            omega
          · omega

/-- Claim C8 (amended).  `acquire_for_models` always returns with total wait at
most the clamped budget `max(1000, waitTimeoutMs)` (the 1 s floor is the
amendment; termination itself is witnessed by the totality of the embedding);
a result is timed out exactly when it carries no lease; a timed-out result
reports the last computed nearest wait (zero when no lane produced one); and
every computed nearest wait is strictly positive. -/
theorem c8_acquire_terminates_within_budget (al : Allocator)
    (modelCandidates keyPool : List String) (requestedTokens : Nat)
    (blockedKeys : List String) (waitTimeoutMs : Option Nat)
    (preferredKey : Option String) (t0 : Nat) (st : AllocState) :
    ((acquireForModels al modelCandidates keyPool requestedTokens blockedKeys
        waitTimeoutMs preferredKey t0 st).2.waitedMs ≤
      max 1000 (waitTimeoutMs.getD al.config.defaultWaitTimeoutMs)) ∧
    ((acquireForModels al modelCandidates keyPool requestedTokens blockedKeys
        waitTimeoutMs preferredKey t0 st).2.timedOut = true ↔
      (acquireForModels al modelCandidates keyPool requestedTokens blockedKeys
        waitTimeoutMs preferredKey t0 st).2.lease = none) ∧
    ((acquireForModels al modelCandidates keyPool requestedTokens blockedKeys
        waitTimeoutMs preferredKey t0 st).2.timedOut = true →
      (acquireForModels al modelCandidates keyPool requestedTokens blockedKeys
          waitTimeoutMs preferredKey t0 st).2.retryAfterMs =
        ((acquireGo al modelCandidates keyPool
            ((blockedKeys.map strTrim).filter (fun k => k ≠ ""))
            (max 1 requestedTokens) (strTrim (preferredKey.getD "")) t0
            (max 1000 (waitTimeoutMs.getD al.config.defaultWaitTimeoutMs))
            (max 1000 (waitTimeoutMs.getD al.config.defaultWaitTimeoutMs) + 1)
            st 0).2.2).getD 0) ∧
    (∀ w, (acquireGo al modelCandidates keyPool
            ((blockedKeys.map strTrim).filter (fun k => k ≠ ""))
            (max 1 requestedTokens) (strTrim (preferredKey.getD "")) t0
            (max 1000 (waitTimeoutMs.getD al.config.defaultWaitTimeoutMs))
            (max 1000 (waitTimeoutMs.getD al.config.defaultWaitTimeoutMs) + 1)
            st 0).2.2 = some w → 0 < w) := by
  have h := acquireGo_spec al modelCandidates keyPool
    ((blockedKeys.map strTrim).filter (fun k => k ≠ ""))
    (max 1 requestedTokens) (strTrim (preferredKey.getD "")) t0
    (max 1000 (waitTimeoutMs.getD al.config.defaultWaitTimeoutMs))
    (max 1000 (waitTimeoutMs.getD al.config.defaultWaitTimeoutMs) + 1) st 0
    (Nat.zero_le _) (by omega)
  exact h

/-- Witness for claim C8: a call with an empty candidate list and a 1 ms
timeout times out with no lease and a zero retry hint. -/
theorem c8_acquire_terminates_within_budget_witness :
    (acquireForModels cxAllocator [] [] 0 [] (some 1) none 0 initAllocState).2.waitedMs
        ≤ max 1000 ((some 1).getD cxAllocator.config.defaultWaitTimeoutMs) ∧
    (acquireForModels cxAllocator [] [] 0 [] (some 1) none 0
        initAllocState).2.retryAfterMs =
      ((acquireGo cxAllocator [] [] (([] : List String).map strTrim |>.filter
          (fun k => k ≠ "")) (max 1 0) (strTrim ((none : Option String).getD "")) 0
          (max 1000 ((some 1).getD cxAllocator.config.defaultWaitTimeoutMs))
          (max 1000 ((some 1).getD cxAllocator.config.defaultWaitTimeoutMs) + 1)
          initAllocState 0).2.2).getD 0 :=
  ⟨(c8_acquire_terminates_within_budget cxAllocator [] [] 0 [] (some 1) none 0
      initAllocState).1,
   (c8_acquire_terminates_within_budget cxAllocator [] [] 0 [] (some 1) none 0
      initAllocState).2.2.1 (by decide)⟩

/-! ### Claim C9: key in-flight accounting -/

/-- Creating a key state on access does not change any in-flight counter. -/
theorem keyInFlight_keyStateOf_snd (st : AllocState) (key k : String) :
    keyInFlight (keyStateOf st key).2 k = keyInFlight st k := by
  unfold keyStateOf keyInFlight
  rcases h : st.keys key with _ | ks
  · by_cases hk : k = key <;> simp [h, hk, keyStateInit]
  · simp [h]

/-- The key state handed back by `_key_state` carries the stored in-flight
counter. -/
theorem keyStateOf_fst_inFlight (st : AllocState) (key : String) :
    (keyStateOf st key).1.inFlightTotal = keyInFlight st key := by
  unfold keyStateOf keyInFlight
  rcases h : st.keys key with _ | ks <;> simp [h]

/-- Creating a lane on access does not change any key's in-flight counter. -/
theorem keyInFlight_laneStateOf (st : AllocState) (key modelId : String)
    (nowMs : Nat) (k : String) :
    keyInFlight (laneStateOf st key modelId nowMs).2 k = keyInFlight st k := by
  unfold laneStateOf keyInFlight
  rcases h : st.lanes (key, modelId) with _ | l <;> simp [h]

/-- The round-robin cursor update does not change any in-flight counter. -/
theorem keyInFlight_setNextIndex (st : AllocState) (n : Nat) (k : String) :
    keyInFlight { st with nextKeyIndex := n } k = keyInFlight st k := rfl

/-- Writing a lane does not change any key's in-flight counter. -/
theorem keyInFlight_setLaneState (st : AllocState) (key modelId : String)
    (l : LaneState) (k : String) :
    keyInFlight (setLaneState st key modelId l) k = keyInFlight st k := rfl

/-- Writing a key state changes exactly that key's in-flight counter. -/
theorem keyInFlight_setKeyState (st : AllocState) (key : String) (ks : KeyState)
    (k : String) :
    keyInFlight (setKeyState st key ks) k =
      if k = key then ks.inFlightTotal else keyInFlight st k := by
  unfold setKeyState keyInFlight
  by_cases hk : k = key <;> simp [hk]

/-- One scan pass bumps exactly the issued lease's key in-flight counter. -/
theorem scanGo_keyInFlight (al : Allocator) (kp bks : List String) (req nowMs : Nat) :
    ∀ (pairs : List (Nat × String × Nat)) (st : AllocState) (acc : Option Nat)
      (k : String),
      keyInFlight (scanGo al kp bks req nowMs pairs st acc).1 k =
        keyInFlight st k + leaseBump (scanGo al kp bks req nowMs pairs st acc).2.1 k := by
  intro pairs
  induction pairs with
  | nil =>
    intro st acc k
    simp [scanGo, leaseBump]
  | cons p rest ih =>
    obtain ⟨mi, m, ki⟩ := p
    intro st acc k
    simp only [scanGo]
    split
    · exact ih st acc k
    · split
      · exact ih st acc k
      · rename_i limit hlim
        split
        · rw [ih]
          rw [keyInFlight_setLaneState, keyInFlight_laneStateOf, keyInFlight_keyStateOf_snd]
        · split
          · rw [keyInFlight_setNextIndex, keyInFlight_setKeyState]
            by_cases hk : k = strTrim (kp.getD ki "")
            · simp [hk, leaseBump, keyStateOf_fst_inFlight]
            · have hk2 : ¬ (strTrim (kp.getD ki "") = k) := fun h => hk h.symm
              have hk3 : ¬ (strTrim (kp[ki]?.getD "") = k) := by
                simpa [List.getD] using hk2
              rw [if_neg hk, keyInFlight_setLaneState, keyInFlight_setLaneState,
                keyInFlight_laneStateOf, keyInFlight_keyStateOf_snd]
              simp [leaseBump, hk2, hk3]
          · rw [keyInFlight_setKeyState]
            by_cases hk : k = strTrim (kp.getD ki "")
            · simp [hk, leaseBump, keyStateOf_fst_inFlight]
            · have hk2 : ¬ (strTrim (kp.getD ki "") = k) := fun h => hk h.symm
              have hk3 : ¬ (strTrim (kp[ki]?.getD "") = k) := by
                simpa [List.getD] using hk2
              rw [if_neg hk, keyInFlight_setLaneState, keyInFlight_setLaneState,
                keyInFlight_laneStateOf, keyInFlight_keyStateOf_snd]
              simp [leaseBump, hk2, hk3]

/-- The acquisition loop bumps exactly the issued lease's key. -/
theorem acquireGo_keyInFlight (al : Allocator) (mc kp bks : List String) (req : Nat)
    (pref : String) (t0 T : Nat) :
    ∀ (fuel : Nat) (st : AllocState) (elapsed : Nat) (k : String),
      keyInFlight (acquireGo al mc kp bks req pref t0 T fuel st elapsed).1 k =
        keyInFlight st k +
          leaseBump (acquireGo al mc kp bks req pref t0 T fuel st elapsed).2.1.lease k := by
  intro fuel
  induction fuel with
  | zero =>
    intro st elapsed k
    simp [acquireGo, leaseBump]
  | succ fuel ih =>
    intro st elapsed k
    simp only [acquireGo]
    split
    · rename_i st1 lease nearest heq
      have hs := scanGo_keyInFlight al kp bks req (t0 + elapsed)
        (scanPairs al mc kp bks pref st) st none k
      rw [heq] at hs
      simpa [leaseBump] using hs
    · rename_i st1 nearest heq
      have hs := scanGo_keyInFlight al kp bks req (t0 + elapsed)
        (scanPairs al mc kp bks pref st) st none k
      rw [heq] at hs
      simp only [leaseBump] at hs
      split
      · simpa [leaseBump] using hs
      · split
        · simpa [leaseBump] using hs
        · rw [ih st1 _ k]
          omega

/-- `acquire_for_models` bumps exactly the issued lease's key. -/
theorem acquireForModels_keyInFlight (al : Allocator) (mc kp : List String)
    (req : Nat) (bk : List String) (wt : Option Nat) (pk : Option String)
    (t0 : Nat) (st : AllocState) (k : String) :
    keyInFlight (acquireForModels al mc kp req bk wt pk t0 st).1 k =
      keyInFlight st k +
        leaseBump (acquireForModels al mc kp req bk wt pk t0 st).2.lease k := by
  unfold acquireForModels
  exact acquireGo_keyInFlight al mc kp _ _ _ t0 _ _ st 0 k

/-- `release` never touches a key's in-flight counter except to decrement. -/
theorem keyReleaseApply_inFlight (al : Allocator) (ks : KeyState) (success : Bool)
    (errorKind : String) (nowMs : Nat) :
    (keyReleaseApply al ks success errorKind nowMs).inFlightTotal =
      ks.inFlightTotal - 1 := by
  unfold keyReleaseApply
  dsimp only
  split_ifs <;> rfl

/-- `release` decrements exactly the lease's key in-flight counter (clamped at
zero, as the Python `max(0, ...)`). -/
theorem releaseLease_keyInFlight (al : Allocator) (st : AllocState)
    (lease : LaneLease) (success : Bool) (usedTokens : Option Nat)
    (errorKind : String) (nowMs : Nat) (k : String) :
    keyInFlight (releaseLease al st lease success usedTokens errorKind nowMs) k =
      if k = lease.key then keyInFlight st k - 1 else keyInFlight st k := by
  unfold releaseLease
  rw [keyInFlight_setKeyState]
  by_cases hk : k = lease.key
  · rw [if_pos hk, if_pos hk, keyReleaseApply_inFlight, keyStateOf_fst_inFlight, hk]
  · rw [if_neg hk, if_neg hk, keyInFlight_setLaneState, keyInFlight_laneStateOf,
      keyInFlight_keyStateOf_snd]

/-- Splitting the outstanding count over an appended issue list. -/
theorem outstandingAux_append (rel : List Nat) (k : String) (xs ys : List LaneLease) :
    ∀ b, outstandingAux rel k (xs ++ ys) b =
      outstandingAux rel k xs b + outstandingAux rel k ys (b + xs.length) := by
  induction xs with
  | nil =>
    intro b
    simp [outstandingAux]
  | cons x xs ih =>
    intro b
    simp only [List.cons_append, outstandingAux, List.append_eq, ih (b + 1),
      List.length_cons]
    rw [show b + 1 + xs.length = b + (xs.length + 1) by omega, Nat.add_assoc]

/-- Releasing a position below the base leaves a segment's count unchanged. -/
theorem outstandingAux_cons_released_of_lt (rel : List Nat) (k : String)
    (issued : List LaneLease) :
    ∀ b i, i < b →
      outstandingAux (i :: rel) k issued b = outstandingAux rel k issued b := by
  induction issued with
  | nil =>
    intro b i h
    rfl
  | cons l rest ih =>
    intro b i h
    simp only [outstandingAux]
    rw [ih (b + 1) i (by omega)]
    have hc : ((i :: rel).contains b) = rel.contains b := by
      simp [List.contains_cons, Ne.symm (by omega : i ≠ b)]
    rw [hc]

/-- Releasing a valid unreleased position removes exactly that lease's
contribution from the outstanding count. -/
theorem outstandingAux_release (rel : List Nat) (k : String) :
    ∀ (issued : List LaneLease) (b i : Nat) (l : LaneLease), b ≤ i →
      issued.get? (i - b) = some l → rel.contains i = false →
      outstandingAux (i :: rel) k issued b + (if l.key = k then 1 else 0) =
        outstandingAux rel k issued b := by
  intro issued
  induction issued with
  | nil =>
    intro b i l hbi hget hrel
    simp at hget
  | cons hd tl ih =>
    intro b i l hbi hget hrel
    by_cases hib : i = b
    · subst hib
      rw [Nat.sub_self] at hget
      have hl : hd = l := by simpa using hget
      subst hl
      simp only [outstandingAux]
      rw [outstandingAux_cons_released_of_lt rel k tl (i + 1) i (by omega)]
      have hc1 : ((i :: rel).contains i) = true := by simp
      rw [hc1, hrel]
      by_cases hk : hd.key = k <;> simp [hk] <;> omega
    · simp only [outstandingAux]
      have hget' : tl.get? (i - (b + 1)) = some l := by
        rw [show i - b = (i - (b + 1)) + 1 by omega] at hget
        simpa using hget
      have hc : ((i :: rel).contains b) = rel.contains b := by
        simp [List.contains_cons, Ne.symm (by omega : i ≠ b)]
      rw [hc, Nat.add_assoc, ih (b + 1) i l (by omega) hget' hrel]

/-- One well-formed command preserves the C9 ledger invariant. -/
theorem execCmd_invariant (al : Allocator) (s : TraceState) (c : AllocCmd)
    (h : traceInvariant s) (hok : okCmd s c = true) :
    traceInvariant (execCmd al s c) := by
  obtain ⟨hbound, hnodup, hcount⟩ := h
  cases c with
  | acquire mc kp req bk wt pk t0 =>
    simp only [execCmd]
    split
    · rename_i l heq
      refine ⟨?_, hnodup, fun k => ?_⟩
      · intro i hi
        have := hbound i hi
        simp only [List.length_append, List.length_cons, List.length_nil]
        omega
      · have hb := acquireForModels_keyInFlight al mc kp req bk wt pk t0 s.alloc k
        rw [heq] at hb
        have hmem : s.issued.length ∉ s.released := fun hm =>
          absurd (hbound _ hm) (by omega)
        have hcf : s.released.contains s.issued.length = false := by
          simpa using hmem
        simp only [traceInvariant, outstandingFor] at *
        rw [hb]
        show _ = outstandingAux s.released k (s.issued ++ [l]) 0
        rw [outstandingAux_append, hcount k]
        simp only [outstandingAux, hcf, leaseBump]
        by_cases hk : l.key = k <;> simp [hk, hmem]
    · rename_i heq
      refine ⟨hbound, hnodup, fun k => ?_⟩
      have hb := acquireForModels_keyInFlight al mc kp req bk wt pk t0 s.alloc k
      rw [heq] at hb
      simp only [leaseBump, Nat.add_zero] at hb
      show keyInFlight _ k = outstandingAux s.released k s.issued 0
      rw [hb]
      exact hcount k
  | release i success used err now =>
    simp only [execCmd]
    split
    · exact ⟨hbound, hnodup, hcount⟩
    · rename_i l heq
      simp only [okCmd, Bool.and_eq_true, decide_eq_true_eq, Bool.not_eq_true'] at hok
      obtain ⟨hilen, hicon⟩ := hok
      have hmem : i ∉ s.released := by simpa using hicon
      refine ⟨?_, ?_, fun k => ?_⟩
      · intro j hj
        rcases List.mem_cons.mp hj with rfl | hj
        · exact hilen
        · exact hbound j hj
      · exact List.nodup_cons.mpr ⟨hmem, hnodup⟩
      · rw [releaseLease_keyInFlight]
        have hget : s.issued.get? (i - 0) = some l := by simpa using heq
        have hrel := outstandingAux_release s.released k s.issued 0 i l (Nat.zero_le i)
          hget hicon
        have hcnt := hcount k
        simp only [outstandingFor] at hcnt ⊢
        by_cases hk : k = l.key
        · rw [if_pos hk]
          have hbk : (if l.key = k then 1 else 0) = 1 := by simp [hk.symm]
          rw [hbk] at hrel
          omega
        · rw [if_neg hk]
          have hlk : ¬ (l.key = k) := fun hkk => hk hkk.symm
          have hbk : (if l.key = k then 1 else 0) = 0 := by simp [hlk]
          rw [hbk] at hrel
          omega

/-- A well-formed trace preserves the ledger invariant from any state. -/
theorem execTrace_invariant_from (al : Allocator) :
    ∀ (trace : List AllocCmd) (s : TraceState), traceInvariant s →
      traceOkFrom al s trace = true → traceInvariant (trace.foldl (execCmd al) s) := by
  intro trace
  induction trace with
  | nil =>
    intro s h _
    exact h
  | cons c rest ih =>
    intro s h hok
    simp only [traceOkFrom, Bool.and_eq_true] at hok
    exact ih (execCmd al s c) (execCmd_invariant al s c h hok.1) hok.2

/-- Claim C9.  After any finite well-formed sequence of Acquire and Release
operations (each issued lease released at most once), every key's in-flight
counter equals the number of its issued but not yet released leases. -/
theorem c9_key_inflight_accounting (al : Allocator) (trace : List AllocCmd)
    (h : traceOkFrom al initTraceState trace = true) :
    ∀ k, keyInFlight (execTrace al trace).alloc k = outstandingFor (execTrace al trace) k :=
  (execTrace_invariant_from al trace initTraceState
      ⟨fun i hi => absurd hi (List.not_mem_nil i), List.nodup_nil,
       fun k => rfl⟩ h).2.2

/-- Witness for claim C9: one acquisition followed by its release leaves the
key with zero in-flight, matching the empty outstanding set. -/
theorem c9_key_inflight_accounting_witness :
    traceOkFrom cxAllocator initTraceState
        [.acquire ["m"] ["k"] 1 [] (some 2000) none 100000,
         .release 0 true none "" 100000] = true ∧
    keyInFlight (execTrace cxAllocator
        [.acquire ["m"] ["k"] 1 [] (some 2000) none 100000,
         .release 0 true none "" 100000]).alloc "k" =
      outstandingFor (execTrace cxAllocator
        [.acquire ["m"] ["k"] 1 [] (some 2000) none 100000,
         .release 0 true none "" 100000]) "k" :=
  ⟨by decide,
   c9_key_inflight_accounting cxAllocator
     [.acquire ["m"] ["k"] 1 [] (some 2000) none 100000,
      .release 0 true none "" 100000] (by decide) "k"⟩

/-! ### Claim C7: grouped synthesis assembly -/

/-- Association lookup distributes over append, preferring the left list. -/
theorem lookup_append_or {β : Type} (l₁ l₂ : List (Int × β)) (a : Int) :
    (l₁ ++ l₂).lookup a = (l₁.lookup a).or (l₂.lookup a) := by
  induction l₁ with
  | nil => simp [List.lookup]
  | cons x rest ih =>
    obtain ⟨j, v⟩ := x
    by_cases h : a = j
    · simp [List.lookup, beq_iff_eq, h]
    · simp [List.lookup, beq_eq_false_iff_ne.mpr h, ih]

/-- Left-to-right dictionary assignment is lookup on the reversed list (the
last assignment wins). -/
theorem assignEntries_eq (l : List (Int × List Nat × String)) :
    ∀ (m : Int → Option (List Nat × String)) (i : Int),
      assignEntries l m i = ((l.reverse).lookup i).or (m i) := by
  induction l with
  | nil =>
    intro m i
    simp [assignEntries, List.lookup]
  | cons x rest ih =>
    obtain ⟨j, v⟩ := x
    intro m i
    simp only [assignEntries, List.reverse_cons]
    rw [ih, lookup_append_or, Option.or_assoc]
    congr 1
    by_cases h : i = j
    · simp [List.lookup, beq_iff_eq, h]
    · simp [List.lookup, beq_eq_false_iff_ne.mpr h, h]

/-- With distinct keys, association lookup is permutation-invariant. -/
theorem lookup_eq_of_perm {β : Type} :
    ∀ (l l' : List (Int × β)), l.Perm l' → (l.map Prod.fst).Nodup →
      ∀ a, l.lookup a = l'.lookup a := by
  intro l l' h
  induction h with
  | nil =>
    intro _ a
    rfl
  | cons x h ih =>
    intro hnd a
    obtain ⟨j, v⟩ := x
    simp only [List.map_cons, List.nodup_cons] at hnd
    by_cases hj : a = j
    · simp [List.lookup, beq_iff_eq, hj]
    · simp [List.lookup, beq_eq_false_iff_ne.mpr hj, ih hnd.2 a]
  | swap x y t =>
    intro hnd a
    obtain ⟨j₁, v₁⟩ := x
    obtain ⟨j₂, v₂⟩ := y
    simp only [List.map_cons, List.nodup_cons, List.mem_cons] at hnd
    have hne : j₂ ≠ j₁ := fun hc => hnd.1 (Or.inl hc)
    have hne21 : (j₂ == j₁) = false := beq_eq_false_iff_ne.mpr hne
    have hne12 : (j₁ == j₂) = false := beq_eq_false_iff_ne.mpr (fun hc => hne hc.symm)
    by_cases hy : a = j₂ <;> by_cases hx : a = j₁
    · exact absurd (hy.symm.trans hx) hne
    · simp [List.lookup, beq_iff_eq, hy, beq_eq_false_iff_ne.mpr hx, hne21, hne12]
    · simp [List.lookup, beq_iff_eq, hx, beq_eq_false_iff_ne.mpr hy, hne21, hne12]
    · simp [List.lookup, beq_eq_false_iff_ne.mpr hx, beq_eq_false_iff_ne.mpr hy]
  | trans h₁ h₂ ih₁ ih₂ =>
    intro hnd a
    rw [ih₁ hnd a, ih₂ ((h₁.map Prod.fst).nodup hnd) a]

/-- With globally distinct line indexes, the assembled line-audio dictionary
does not depend on the order in which the group results arrived. -/
theorem lineAudioMap_perm (results results' : List GroupResult)
    (hp : results.Perm results')
    (hnd : ((results.flatMap lineEntriesOfResult).map Prod.fst).Nodup) :
    lineAudioMap results' = lineAudioMap results := by
  funext i
  unfold lineAudioMap
  rw [assignEntries_eq, assignEntries_eq]
  have p1 : ((results.mergeSort groupResultLe).flatMap lineEntriesOfResult).reverse.Perm
      (results.flatMap lineEntriesOfResult) :=
    (List.reverse_perm _).trans
      (List.Perm.flatMap_right _ (List.mergeSort_perm results _))
  have hperm : ((results.mergeSort groupResultLe).flatMap lineEntriesOfResult).reverse.Perm
      ((results'.mergeSort groupResultLe).flatMap lineEntriesOfResult).reverse := by
    refine p1.trans ?_
    refine (List.Perm.flatMap_right _ ?_).trans (List.reverse_perm _).symm
    exact hp.trans (List.mergeSort_perm results' _).symm
  have hnd' :
      ((((results.mergeSort groupResultLe).flatMap lineEntriesOfResult).reverse).map
        Prod.fst).Nodup :=
    ((p1.map Prod.fst).symm).nodup hnd
  rw [lookup_eq_of_perm _ _ hperm hnd' i]

/-- The filtering pass of the normalizer emits non-negative, unseen, distinct
line indexes. -/
theorem normalizeLineMapGo_indexes (raw : List LineEntry) :
    ∀ seen : List Int,
      (∀ e ∈ normalizeLineMapGo raw seen,
        0 ≤ e.lineIndex ∧ ¬ seen.contains e.lineIndex = true) ∧
      ((normalizeLineMapGo raw seen).map (fun e => e.lineIndex)).Nodup := by
  induction raw with
  | nil =>
    intro seen
    exact ⟨by simp [normalizeLineMapGo], by simp [normalizeLineMapGo]⟩
  | cons item rest ih =>
    intro seen
    simp only [normalizeLineMapGo]
    split_ifs with h1 h2 h3
    · exact ih seen
    · exact ih seen
    · exact ih seen
    · have ihr := ih (item.lineIndex :: seen)
      constructor
      · intro e he
        rcases List.mem_cons.mp he with rfl | he
        · constructor
          · show 0 ≤ item.lineIndex
            have hlt : ¬ item.lineIndex < 0 := fun hlt => h1 (Or.inl hlt)
            omega
          · show ¬ seen.contains item.lineIndex = true
            exact fun hc => h1 (Or.inr hc)
        · obtain ⟨hpos, hseen⟩ := ihr.1 e he
          refine ⟨hpos, fun hc => hseen ?_⟩
          simp only [List.contains_cons, hc, Bool.or_true]
      · rw [List.map_cons, List.nodup_cons]
        refine ⟨?_, ihr.2⟩
        intro hmem
        obtain ⟨e, he, heq⟩ := List.mem_map.mp hmem
        refine (ihr.1 e he).2 ?_
        simp only [List.contains_cons, heq, beq_self_eq_true, Bool.true_or]

/-- The normalized line map's index sequence is strictly increasing. -/
theorem normalize_pairwise_lt (raw : List LineEntry) :
    ((normalizeMultiSpeakerLineMap raw).map (fun e => e.lineIndex)).Pairwise (· < ·) := by
  unfold normalizeMultiSpeakerLineMap
  have hsor := @List.sorted_mergeSort LineEntry
    (fun a b : LineEntry => decide (a.lineIndex ≤ b.lineIndex))
    (by
      intro a b c hab hbc
      simp only [decide_eq_true_eq] at hab hbc ⊢
      omega)
    (by
      intro a b
      simp only [Bool.or_eq_true, decide_eq_true_eq]
      omega)
    (normalizeLineMapGo raw [])
  have hnd : ((normalizeLineMapGo raw []).map (fun e => e.lineIndex)).Nodup :=
    (normalizeLineMapGo_indexes raw []).2
  have hnd' : (((normalizeLineMapGo raw []).mergeSort
      (fun a b => decide (a.lineIndex ≤ b.lineIndex))).map (fun e => e.lineIndex)).Nodup :=
    (((List.mergeSort_perm (normalizeLineMapGo raw [])
        (fun a b => decide (a.lineIndex ≤ b.lineIndex))).map
      (fun e => e.lineIndex)).symm).nodup hnd
  rw [List.pairwise_map]
  have hp1 : ((normalizeLineMapGo raw []).mergeSort
      (fun a b => decide (a.lineIndex ≤ b.lineIndex))).Pairwise
      (fun a b => a.lineIndex ≤ b.lineIndex) :=
    hsor.imp (by
      intro a b h
      simpa using h)
  have hp2 : ((normalizeLineMapGo raw []).mergeSort
      (fun a b => decide (a.lineIndex ≤ b.lineIndex))).Pairwise
      (fun a b => a.lineIndex ≠ b.lineIndex) :=
    List.pairwise_map.mp (show List.Pairwise (· ≠ ·) _ from hnd')
  exact (hp1.and hp2).imp (fun h => lt_of_le_of_ne h.1 h.2)

/-- On a normalized line map the negative-index filter keeps everything. -/
theorem orderedLineIndexes_normalize (raw : List LineEntry) :
    orderedLineIndexes (normalizeMultiSpeakerLineMap raw) =
      (normalizeMultiSpeakerLineMap raw).map (fun e => e.lineIndex) := by
  unfold orderedLineIndexes
  rw [List.filter_eq_self]
  intro i hi
  obtain ⟨e, he, rfl⟩ := List.mem_map.mp hi
  have hmem : e ∈ normalizeLineMapGo raw [] := by
    unfold normalizeMultiSpeakerLineMap at he
    exact (List.mergeSort_perm _ _).mem_iff.mp he
  have h0 := ((normalizeLineMapGo_indexes raw []).1 e hmem).1
  simpa using h0

/-- The assembled chunk for a line index carries that index. -/
theorem buildOrderedLineChunk_lineIndex (m : Int → Option (List Nat × String))
    (i : Int) : (buildOrderedLineChunk m i).lineIndex = i := by
  unfold buildOrderedLineChunk
  dsimp only
  split_ifs <;> rfl

/-- Every assembled chunk is non-empty, and a silence fallback is the 10 ms
zero chunk tagged "silence". -/
theorem buildOrderedLineChunk_props (m : Int → Option (List Nat × String))
    (i : Int) :
    (buildOrderedLineChunk m i).pcmBytes ≠ [] ∧
    ((buildOrderedLineChunk m i).silenceFallback = true →
      (buildOrderedLineChunk m i).pcmBytes = silenceChunk ∧
      (buildOrderedLineChunk m i).splitMode = "silence") := by
  unfold buildOrderedLineChunk
  dsimp only
  split_ifs with h
  · refine ⟨?_, fun _ => ⟨rfl, rfl⟩⟩
    show silenceChunk ≠ []
    decide
  · exact ⟨h, fun hc => absurd hc (by simp)⟩

/-- Claim C7.  For a successful grouped synthesis over a normalized line map
with globally distinct per-line assignments: the structured output is
invariant under the completion order of the groups; the per-line chunks are
ordered by strictly increasing lineIndex following the normalized map; the
WAV audio payload is exactly the concatenation of the per-line PCM chunks at
24 kHz; and every per-line chunk is non-empty, a silence fallback being the
10 ms zero chunk with splitMode "silence". -/
theorem c7_grouped_synthesis_assembly (raw : List LineEntry)
    (results results' : List GroupResult) (o : GroupedSynthOut)
    (hperm : results.Perm results')
    (hnd : ((results.flatMap lineEntriesOfResult).map Prod.fst).Nodup)
    (hok : synthesizeStudioPairGroupsAssemble (normalizeMultiSpeakerLineMap raw) results
      = .ok o) :
    synthesizeStudioPairGroupsAssemble (normalizeMultiSpeakerLineMap raw) results'
        = .ok o ∧
    o.lineChunks.map (fun c => c.lineIndex) =
      (normalizeMultiSpeakerLineMap raw).map (fun e => e.lineIndex) ∧
    (o.lineChunks.map (fun c => c.lineIndex)).Pairwise (· < ·) ∧
    o.wav.audioPayload = (o.lineChunks.map (fun c => c.pcmBytes)).flatten ∧
    o.wav.sampleRate = 24000 ∧
    ∀ c ∈ o.lineChunks, c.pcmBytes ≠ [] ∧
      (c.silenceFallback = true →
        c.pcmBytes = silenceChunk ∧ c.splitMode = "silence") := by
  refine ⟨?_, ?_⟩
  · have hsame : synthesizeStudioPairGroupsAssemble (normalizeMultiSpeakerLineMap raw)
        results' = synthesizeStudioPairGroupsAssemble (normalizeMultiSpeakerLineMap raw)
        results := by
      unfold synthesizeStudioPairGroupsAssemble
      rw [lineAudioMap_perm results results' hperm hnd]
    rw [hsame]
    exact hok
  · unfold synthesizeStudioPairGroupsAssemble at hok
    dsimp only at hok
    split_ifs at hok with hemp
    unfold pcm16ToWav at hok
    split_ifs at hok with hodd
    case pos => exact absurd hok (by simp [Except.map])
    case neg =>
        simp only [Except.map] at hok
        injection hok with hok
        subst hok
        have hmapeq : (((orderedLineIndexes (normalizeMultiSpeakerLineMap raw)).map
            (buildOrderedLineChunk (lineAudioMap results))).map
              (fun c => c.lineIndex)) =
            (normalizeMultiSpeakerLineMap raw).map (fun e => e.lineIndex) := by
          simp only [List.map_map, Function.comp_def, buildOrderedLineChunk_lineIndex]
          simpa using orderedLineIndexes_normalize raw
        refine ⟨hmapeq, ?_, rfl, rfl, ?_⟩
        · exact hmapeq.symm ▸ normalize_pairwise_lt raw
        · intro c hc
          have hc' : c ∈ (orderedLineIndexes (normalizeMultiSpeakerLineMap raw)).map
              (buildOrderedLineChunk (lineAudioMap results)) := hc
          obtain ⟨i, _, rfl⟩ := List.mem_map.mp hc'
          exact buildOrderedLineChunk_props (lineAudioMap results) i

/-- Concrete witness for C7: two single-line groups assembled out of order
produce the same two-chunk 24 kHz output. -/
theorem c7_grouped_synthesis_assembly_witness :
    ([c7Res0, c7Res1] : List GroupResult).Perm [c7Res1, c7Res0] ∧
    ((([c7Res0, c7Res1] : List GroupResult).flatMap lineEntriesOfResult).map
      Prod.fst).Nodup ∧
    synthesizeStudioPairGroupsAssemble (normalizeMultiSpeakerLineMap c7Raw)
      [c7Res0, c7Res1] = .ok c7Out ∧
    synthesizeStudioPairGroupsAssemble (normalizeMultiSpeakerLineMap c7Raw)
      [c7Res1, c7Res0] = .ok c7Out := by
  have hp : ([c7Res0, c7Res1] : List GroupResult).Perm [c7Res1, c7Res0] := by decide
  have hnd : ((([c7Res0, c7Res1] : List GroupResult).flatMap
      lineEntriesOfResult).map Prod.fst).Nodup := by decide
  have hok : synthesizeStudioPairGroupsAssemble (normalizeMultiSpeakerLineMap c7Raw)
      [c7Res0, c7Res1] = .ok c7Out := by
    simp [synthesizeStudioPairGroupsAssemble, normalizeMultiSpeakerLineMap,
      normalizeLineMapGo, collapseWs, wordsAux, joinWords, List.mergeSort,
      orderedLineIndexes, lineAudioMap, groupResultLe, lineEntriesOfResult,
      assignEntries, buildOrderedLineChunk, pcm16ToWav, silenceChunk, Except.map,
      c7Raw, c7Res0, c7Res1, c7Out]
  exact ⟨hp, hnd, hok,
    (c7_grouped_synthesis_assembly c7Raw [c7Res0, c7Res1] [c7Res1, c7Res0] c7Out
      hp hnd hok).1⟩

end VoiceFlow
